import Mathlib

/-!
Verification of the reactor-scheduling and plant-orchestration core of the
ten_jrrs_system repository, shallowly embedded in Lean.

Conventions of the embedding:
* Python `float` arithmetic is modelled by exact rational arithmetic (`ℚ`).
* Python `int` counters (minutes, counts, indices) are modelled by `ℕ`.
* A Python `set` of small reactor indices is modelled by `Finset ℕ`; iterating
  such a set (as `sorted(...)` and the `for` loops do) is modelled as iterating
  its elements in ascending order, which is CPython's observable iteration
  order for the small-integer sets this program builds.
* Python's stable `sorted(l, key=k)` applied to an ascending-index list is
  modelled by an insertion sort under the lexicographic relation
  (key, index); stability makes the two extensionally equal.
* Byte strings are modelled as `List ℕ` with entries below 256.
-/

namespace TenJrrs

/-- Lexicographic comparison (key first, then the element itself) modelling
Python's stable sort over an ascending-index input list. -/
def pyRel (key : ℕ → ℤ) (a b : ℕ) : Prop :=
  key a < key b ∨ (key a = key b ∧ a ≤ b)

instance (key : ℕ → ℤ) : DecidableRel (pyRel key) := fun a b => by
  unfold pyRel; infer_instance

instance (key : ℕ → ℤ) : IsTotal ℕ (pyRel key) := by
  constructor
  intro a b
  unfold pyRel
  rcases lt_trichotomy (key a) (key b) with h | h | h
  · exact Or.inl (Or.inl h)
  · rcases Nat.le_total a b with hab | hab
    · exact Or.inl (Or.inr ⟨h, hab⟩)
    · exact Or.inr (Or.inr ⟨h.symm, hab⟩)
  · exact Or.inr (Or.inl h)

instance (key : ℕ → ℤ) : IsTrans ℕ (pyRel key) := by
  constructor
  intro a b c hab hbc
  unfold pyRel at *
  rcases hab with h1 | ⟨h1, h1'⟩ <;> rcases hbc with h2 | ⟨h2, h2'⟩
  · exact Or.inl (h1.trans h2)
  · exact Or.inl (h2 ▸ h1)
  · exact Or.inl (h1 ▸ h2)
  · exact Or.inr ⟨h1.trans h2, h1'.trans h2'⟩

/-- Python `sorted(l, key=key)` on a list of distinct ascending naturals. -/
def pySorted (key : ℕ → ℤ) (l : List ℕ) : List ℕ :=
  l.insertionSort (pyRel key)

/-- State of `ReactorScheduler` (src/inter_operv2.py, lines 5-14). -/
structure ReactorScheduler where
  num_reactors : ℕ
  max_power : ℚ
  reactor_minutes : List ℕ
  interval : ℕ
  running_reactors : Finset ℕ
  total_energy_consumed : ℚ
  running_reactors_his : List ℕ
  relays_to_oc : Option (List ℕ)
  deriving DecidableEq

/-- Constructor `ReactorScheduler.__init__` (src/inter_operv2.py, lines 6-14). -/
def ReactorScheduler.init (num_reactors interval : ℕ) (max_power : ℚ) :
    ReactorScheduler where
  num_reactors := num_reactors
  max_power := max_power
  reactor_minutes := List.replicate num_reactors 0
  interval := interval
  running_reactors := ∅
  total_energy_consumed := 0
  running_reactors_his := []
  relays_to_oc := none

/-- Method `get_operational_reactors` (src/inter_operv2.py, lines 16-39):
the if/elif ladder mapping an available-power percentage to 0..10. -/
def get_operational_reactors (available_power : ℚ) : ℕ :=
  if available_power < 10 then 0
  else if available_power < 20 then 1
  else if available_power < 30 then 2
  else if available_power < 40 then 3
  else if available_power < 50 then 4
  else if available_power < 60 then 5
  else if available_power < 70 then 6
  else if available_power < 80 then 7
  else if available_power < 90 then 8
  else if available_power < 100 then 9
  else 10

/-- Python `self.reactor_minutes[i]` (total version; every claim carries the
validity hypotheses under which the index is in range, as it always is for
states the program builds). -/
def ReactorScheduler.minutes (s : ReactorScheduler) (i : ℕ) : ℕ :=
  s.reactor_minutes.getD i 0

/-- The elements of `running_reactors` in ascending order (CPython iteration
order of the small-integer set, the basis of `sorted(self.running_reactors, ...)`). -/
def ReactorScheduler.running_list (s : ReactorScheduler) : List ℕ :=
  s.running_reactors.sort (· ≤ ·)

/-- Line 98: `sorted(range(self.num_reactors), key=lambda x: self.reactor_minutes[x])`. -/
def ReactorScheduler.reactors_by_runtime (s : ReactorScheduler) : List ℕ :=
  pySorted (fun i => (s.minutes i : ℤ)) (List.range s.num_reactors)

/-- Line 103: `sorted(self.running_reactors, key=lambda x: -self.reactor_minutes[x])`. -/
def ReactorScheduler.excess_reactors (s : ReactorScheduler) : List ℕ :=
  pySorted (fun i => -(s.minutes i : ℤ)) s.running_list

/-- The removal loop (lines 104-105): `for r in excess[:d]: running.remove(r)`. -/
def deactivate_fold (st : Finset ℕ) (l : List ℕ) : Finset ℕ :=
  l.foldl (fun st r => st.erase r) st

/-- The guarded activation loop (lines 109-111):
`for i in by_runtime: if len(running) < k: running.add(i)`. -/
def activate_fold (k : ℕ) (st : Finset ℕ) (l : List ℕ) : Finset ℕ :=
  l.foldl (fun st i => if st.card < k then insert i st else st) st

/-- The running set after the (de)activation branch of
`update_reactor_minutes` / `update_reactor_minutes_v2`
(src/inter_operv2.py, lines 100-111): removal loop over the first
`len(running) - k` entries of the descending-runtime sort, or the guarded
activation loop over the ascending-runtime sort. -/
def ReactorScheduler.new_running (s : ReactorScheduler) (k : ℕ) : Finset ℕ :=
  if k < s.running_reactors.card then
    deactivate_fold s.running_reactors
      (s.excess_reactors.take (s.running_reactors.card - k))
  else if s.running_reactors.card < k then
    activate_fold k s.running_reactors s.reactors_by_runtime
  else
    s.running_reactors

/-- Helper: apply `f i a` to element `a` at index `i` (indices starting at
`start`), modelling the in-place loop `for i in running: minutes[i] += interval`. -/
def mapIdxFrom {α : Type} (f : ℕ → α → α) : ℕ → List α → List α
  | _, [] => []
  | start, a :: as => f start a :: mapIdxFrom f (start + 1) as

/-- Method `update_reactor_minutes` (src/inter_operv2.py, lines 41-66). -/
def ReactorScheduler.update_reactor_minutes (s : ReactorScheduler) (k : ℕ) :
    ReactorScheduler :=
  let nr := s.new_running k
  { s with
    total_energy_consumed :=
      s.total_energy_consumed + (k : ℚ) * (1 / 10 * s.max_power) * ((s.interval : ℚ) / 60)
    running_reactors := nr
    reactor_minutes :=
      mapIdxFrom (fun i m => if i ∈ nr then m + s.interval else m) 0 s.reactor_minutes
    running_reactors_his := s.running_reactors_his ++ [k] }

/-- Method `update_reactor_minutes_v2` (src/inter_operv2.py, lines 91-118):
same computation plus `relays_to_oc = [0]*16` with entry `i` set to 1 for
every `i` in the resulting running set (the loop at lines 114-116). -/
def ReactorScheduler.update_reactor_minutes_v2 (s : ReactorScheduler) (k : ℕ) :
    ReactorScheduler :=
  let nr := s.new_running k
  { num_reactors := s.num_reactors
    max_power := s.max_power
    reactor_minutes :=
      mapIdxFrom (fun i m => if i ∈ nr then m + s.interval else m) 0 s.reactor_minutes
    interval := s.interval
    running_reactors := nr
    total_energy_consumed :=
      s.total_energy_consumed + (k : ℚ) * (1 / 10 * s.max_power) * ((s.interval : ℚ) / 60)
    running_reactors_his := s.running_reactors_his ++ [k]
    relays_to_oc :=
      some ((nr.sort (· ≤ ·)).foldl (fun l i => l.set i 1) (List.replicate 16 0)) }

/-- Method `schedule_reactors` (src/inter_operv2.py, lines 68-72). -/
def ReactorScheduler.schedule_reactors (s : ReactorScheduler)
    (power_readings : List ℚ) : ReactorScheduler :=
  power_readings.foldl
    (fun st p => st.update_reactor_minutes (get_operational_reactors p)) s

/-- Method `schedule_reactors_v2` (src/inter_operv2.py, lines 84-89). -/
def ReactorScheduler.schedule_reactors_v2 (s : ReactorScheduler)
    (power_readings : List ℚ) : ReactorScheduler :=
  power_readings.foldl
    (fun st p => st.update_reactor_minutes_v2 (get_operational_reactors p)) s

/-- Method `calculate_efficiency` (src/inter_operv2.py, lines 74-78). -/
def ReactorScheduler.calculate_efficiency (s : ReactorScheduler)
    (total_solar_power : ℚ) : ℚ :=
  if total_solar_power = 0 then 0 else s.total_energy_consumed / total_solar_power

/-- Helper for claim C4: the target count as the spec states it,
`floor(p/10)` clamped to `[0,10]`. -/
def target_count_spec (p : ℚ) : ℕ :=
  (min 10 (max 0 ⌊p / 10⌋)).toNat

theorem floor_div_ten_eq (n : ℕ) (p : ℚ) (h1 : (10 * n : ℚ) ≤ p)
    (h2 : p < 10 * (n + 1)) : ⌊p / 10⌋ = n := by
  rw [Int.floor_eq_iff]
  constructor
  · rw [le_div_iff (by norm_num : (0 : ℚ) < 10)]
    push_cast
    linarith
  · rw [div_lt_iff (by norm_num : (0 : ℚ) < 10)]
    push_cast
    linarith

theorem get_operational_eq_spec (p : ℚ) :
    get_operational_reactors p = target_count_spec p := by
  unfold get_operational_reactors target_count_spec
  split_ifs with h1 h2 h3 h4 h5 h6 h7 h8 h9 h10
  · have : ⌊p / 10⌋ < 1 := by
      rw [Int.floor_lt]
      rw [div_lt_iff (by norm_num : (0 : ℚ) < 10)]
      push_cast
      linarith
    omega
  · have := floor_div_ten_eq 1 p (by push_cast; linarith) (by push_cast; linarith)
    omega
  · have := floor_div_ten_eq 2 p (by push_cast; linarith) (by push_cast; linarith)
    omega
  · have := floor_div_ten_eq 3 p (by push_cast; linarith) (by push_cast; linarith)
    omega
  · have := floor_div_ten_eq 4 p (by push_cast; linarith) (by push_cast; linarith)
    omega
  · have := floor_div_ten_eq 5 p (by push_cast; linarith) (by push_cast; linarith)
    omega
  · have := floor_div_ten_eq 6 p (by push_cast; linarith) (by push_cast; linarith)
    omega
  · have := floor_div_ten_eq 7 p (by push_cast; linarith) (by push_cast; linarith)
    omega
  · have := floor_div_ten_eq 8 p (by push_cast; linarith) (by push_cast; linarith)
    omega
  · have := floor_div_ten_eq 9 p (by push_cast; linarith) (by push_cast; linarith)
    omega
  · have : (10 : ℤ) ≤ ⌊p / 10⌋ := by
      rw [Int.le_floor]
      rw [le_div_iff (by norm_num : (0 : ℚ) < 10)]
      push_cast
      linarith
    omega

/-- C4: `get_operational_reactors(p)` equals `floor(p/10)` clamped to `[0,10]`;
it takes the four stated concrete values, and it is monotone. -/
theorem C4_target_count_step_function (p p1 p2 : ℚ) (h12 : p1 < p2) :
    get_operational_reactors p = (min 10 (max 0 ⌊p / 10⌋)).toNat ∧
    get_operational_reactors (99 / 10) = 0 ∧
    get_operational_reactors 10 = 1 ∧
    get_operational_reactors (9999 / 100) = 9 ∧
    get_operational_reactors 100 = 10 ∧
    get_operational_reactors p1 ≤ get_operational_reactors p2 := by
  refine ⟨get_operational_eq_spec p, by norm_num [get_operational_reactors],
    by norm_num [get_operational_reactors], by norm_num [get_operational_reactors],
    by norm_num [get_operational_reactors], ?_⟩
  rw [get_operational_eq_spec p1, get_operational_eq_spec p2]
  unfold target_count_spec
  have hf : ⌊p1 / 10⌋ ≤ ⌊p2 / 10⌋ := by
    apply Int.floor_le_floor
    linarith
  omega

/-- Witness for C4 at concrete inputs. -/
theorem C4_witness :
    get_operational_reactors 55 = (min 10 (max 0 ⌊(55 : ℚ) / 10⌋)).toNat ∧
    get_operational_reactors (99 / 10) ≤ get_operational_reactors 10 := by
  have h := C4_target_count_step_function 55 (99 / 10) 10 (by norm_num)
  exact ⟨h.1, h.2.2.2.2.2⟩

theorem deactivate_fold_eq_sdiff (l : List ℕ) (st : Finset ℕ) :
    deactivate_fold st l = st \ l.toFinset := by
  induction l generalizing st with
  | nil => simp [deactivate_fold]
  | cons a l ih =>
    show deactivate_fold (st.erase a) l = _
    rw [ih (st.erase a)]
    ext x
    simp only [Finset.mem_sdiff, Finset.mem_erase, List.mem_toFinset, List.toFinset_cons,
      Finset.mem_insert]
    tauto

theorem pySorted_perm (key : ℕ → ℤ) (l : List ℕ) : (pySorted key l).Perm l :=
  List.perm_insertionSort (pyRel key) l

theorem activate_fold_subset (k : ℕ) (st : Finset ℕ) (l : List ℕ) :
    st ⊆ activate_fold k st l := by
  induction l generalizing st with
  | nil => simp [activate_fold]
  | cons a l ih =>
    show st ⊆ activate_fold k (if st.card < k then insert a st else st) l
    split_ifs with h
    · exact (Finset.subset_insert a st).trans (ih (insert a st))
    · exact ih st

theorem activate_fold_subset_union (k : ℕ) (st : Finset ℕ) (l : List ℕ) :
    activate_fold k st l ⊆ st ∪ l.toFinset := by
  induction l generalizing st with
  | nil => simp [activate_fold]
  | cons a l ih =>
    show activate_fold k (if st.card < k then insert a st else st) l ⊆ _
    intro x hx
    split_ifs at hx with h
    · have := ih (insert a st) hx
      simp only [Finset.mem_union, Finset.mem_insert, List.toFinset_cons,
        List.mem_toFinset] at this ⊢
      tauto
    · have := ih st hx
      simp only [Finset.mem_union, List.toFinset_cons, Finset.mem_insert,
        List.mem_toFinset] at this ⊢
      tauto

theorem activate_fold_of_le (k : ℕ) (st : Finset ℕ) (l : List ℕ)
    (h : k ≤ st.card) : activate_fold k st l = st := by
  induction l with
  | nil => rfl
  | cons a l ih =>
    show activate_fold k (if st.card < k then insert a st else st) l = st
    rw [if_neg (by omega)]
    exact ih

theorem activate_fold_card (k : ℕ) (st : Finset ℕ) (l : List ℕ)
    (h : st.card ≤ k) :
    (activate_fold k st l).card = min k (st ∪ l.toFinset).card := by
  induction l generalizing st with
  | nil =>
    simp only [activate_fold, List.foldl_nil, List.toFinset_nil, Finset.union_empty]
    omega
  | cons a l ih =>
    show (activate_fold k (if st.card < k then insert a st else st) l).card = _
    split_ifs with hc
    · rw [ih (insert a st) (le_trans (Finset.card_insert_le a st) (by omega))]
      have hu : insert a st ∪ l.toFinset = st ∪ (a :: l).toFinset := by
        ext x
        simp only [Finset.mem_union, Finset.mem_insert, List.toFinset_cons,
          List.mem_toFinset]
        tauto
      rw [hu]
    · have hk : st.card = k := by omega
      rw [activate_fold_of_le k st l (by omega)]
      have hle : k ≤ (st ∪ (a :: l).toFinset).card := by
        calc k = st.card := hk.symm
        _ ≤ (st ∪ (a :: l).toFinset).card :=
          Finset.card_le_card (Finset.subset_union_left)
      omega

theorem running_list_nodup (s : ReactorScheduler) : s.running_list.Nodup :=
  s.running_reactors.sort_nodup (· ≤ ·)

theorem running_list_toFinset (s : ReactorScheduler) :
    s.running_list.toFinset = s.running_reactors := by
  ext x
  simp [ReactorScheduler.running_list, Finset.mem_sort]

theorem excess_reactors_perm (s : ReactorScheduler) :
    s.excess_reactors.Perm s.running_list :=
  pySorted_perm _ _

theorem excess_reactors_nodup (s : ReactorScheduler) : s.excess_reactors.Nodup :=
  ((excess_reactors_perm s).nodup_iff).mpr (running_list_nodup s)

theorem excess_reactors_length (s : ReactorScheduler) :
    s.excess_reactors.length = s.running_reactors.card := by
  rw [(excess_reactors_perm s).length_eq]
  exact s.running_reactors.length_sort (· ≤ ·)

theorem excess_reactors_toFinset (s : ReactorScheduler) :
    s.excess_reactors.toFinset = s.running_reactors := by
  rw [List.toFinset_eq_of_perm _ _ (excess_reactors_perm s), running_list_toFinset]

theorem excess_take_toFinset_subset (s : ReactorScheduler) (d : ℕ) :
    (s.excess_reactors.take d).toFinset ⊆ s.running_reactors := by
  intro x hx
  rw [List.mem_toFinset] at hx
  have : x ∈ s.excess_reactors := (s.excess_reactors.take_subset d) hx
  rw [← excess_reactors_toFinset]
  exact List.mem_toFinset.mpr this

theorem excess_take_card (s : ReactorScheduler) (d : ℕ)
    (hd : d ≤ s.running_reactors.card) :
    (s.excess_reactors.take d).toFinset.card = d := by
  rw [List.toFinset_card_of_nodup ((excess_reactors_nodup s).sublist
    (s.excess_reactors.take_sublist d))]
  rw [List.length_take, excess_reactors_length]
  omega

theorem reactors_by_runtime_perm (s : ReactorScheduler) :
    s.reactors_by_runtime.Perm (List.range s.num_reactors) :=
  pySorted_perm _ _

theorem reactors_by_runtime_toFinset (s : ReactorScheduler) :
    s.reactors_by_runtime.toFinset = Finset.range s.num_reactors := by
  rw [List.toFinset_eq_of_perm _ _ (reactors_by_runtime_perm s)]
  ext x
  simp [List.mem_toFinset, List.mem_range, Finset.mem_range]

/-- Size of the active set after one (de)activation branch: exactly the
target count, provided the state is well-formed and the target is feasible. -/
theorem new_running_card (s : ReactorScheduler) (k : ℕ)
    (hsub : s.running_reactors ⊆ Finset.range s.num_reactors)
    (hk : k ≤ s.num_reactors) : (s.new_running k).card = k := by
  unfold ReactorScheduler.new_running
  split_ifs with h1 h2
  · rw [deactivate_fold_eq_sdiff]
    rw [Finset.card_sdiff (excess_take_toFinset_subset s _)]
    rw [excess_take_card s _ (by omega)]
    omega
  · rw [activate_fold_card k _ _ (le_of_lt h2)]
    rw [reactors_by_runtime_toFinset, Finset.union_eq_right.mpr hsub,
      Finset.card_range]
    omega
  · omega

theorem new_running_subset_range (s : ReactorScheduler) (k : ℕ)
    (hsub : s.running_reactors ⊆ Finset.range s.num_reactors) :
    s.new_running k ⊆ Finset.range s.num_reactors := by
  unfold ReactorScheduler.new_running
  split_ifs with h1 h2
  · rw [deactivate_fold_eq_sdiff]
    exact (Finset.sdiff_subset).trans hsub
  · refine (activate_fold_subset_union k _ _).trans ?_
    rw [reactors_by_runtime_toFinset, Finset.union_eq_right.mpr hsub]
  · exact hsub

theorem mapIdxFrom_length {α : Type} (f : ℕ → α → α) (start : ℕ) (l : List α) :
    (mapIdxFrom f start l).length = l.length := by
  induction l generalizing start with
  | nil => rfl
  | cons a l ih => simp [mapIdxFrom, ih]

/-- Reachable scheduler states: constructed by `InterOpWorker` /
`calculate_efficiency_for_x` as `ReactorScheduler(10, interval, max_power)`
and then mutated only through the update methods with a target produced by
`get_operational_reactors`, which always lies in `[0, 10]`. -/
inductive Reachable : ReactorScheduler → Prop
  | init (interval : ℕ) (max_power : ℚ) :
      Reachable (ReactorScheduler.init 10 interval max_power)
  | step_v1 (s : ReactorScheduler) (k : ℕ) : Reachable s → k ≤ 10 →
      Reachable (s.update_reactor_minutes k)
  | step_v2 (s : ReactorScheduler) (k : ℕ) : Reachable s → k ≤ 10 →
      Reachable (s.update_reactor_minutes_v2 k)

theorem reachable_invariant (s : ReactorScheduler) (h : Reachable s) :
    s.num_reactors = 10 ∧ s.reactor_minutes.length = 10 ∧
      s.running_reactors ⊆ Finset.range 10 := by
  induction h with
  | init interval mp =>
    refine ⟨rfl, by simp [ReactorScheduler.init], ?_⟩
    simp [ReactorScheduler.init]
  | step_v1 s k hs hk ih =>
    obtain ⟨hn, hlen, hsub⟩ := ih
    refine ⟨hn, ?_, ?_⟩
    · simpa [ReactorScheduler.update_reactor_minutes, mapIdxFrom_length] using hlen
    · simpa [ReactorScheduler.update_reactor_minutes] using
        hn ▸ new_running_subset_range s k (hn ▸ hsub)
  | step_v2 s k hs hk ih =>
    obtain ⟨hn, hlen, hsub⟩ := ih
    refine ⟨hn, ?_, ?_⟩
    · simpa [ReactorScheduler.update_reactor_minutes_v2, mapIdxFrom_length] using hlen
    · simpa [ReactorScheduler.update_reactor_minutes_v2] using
        hn ▸ new_running_subset_range s k (hn ▸ hsub)

/-- C2: from any reachable scheduler state, `update(k)` for `k ∈ [0,10]`
leaves exactly `k` reactors in the active set, for both update methods. -/
theorem C2_active_set_size (s : ReactorScheduler) (k : ℕ)
    (hs : Reachable s) (hk : k ≤ 10) :
    (s.update_reactor_minutes_v2 k).running_reactors.card = k ∧
    (s.update_reactor_minutes k).running_reactors.card = k := by
  obtain ⟨hn, _, hsub⟩ := reachable_invariant s hs
  have hcard := new_running_card s k (hn ▸ hsub) (by omega)
  exact ⟨by simpa [ReactorScheduler.update_reactor_minutes_v2] using hcard,
    by simpa [ReactorScheduler.update_reactor_minutes] using hcard⟩

/-- Witness for C2: a concrete reachable state and target. -/
theorem C2_active_set_size_witness :
    ((ReactorScheduler.init 10 20 100).update_reactor_minutes_v2 3).running_reactors.card = 3 ∧
    ((ReactorScheduler.init 10 20 100).update_reactor_minutes 3).running_reactors.card = 3 :=
  C2_active_set_size (ReactorScheduler.init 10 20 100) 3
    (Reachable.init 20 100) (by norm_num)

@[simp]
theorem update_v1_max_power (s : ReactorScheduler) (k : ℕ) :
    (s.update_reactor_minutes k).max_power = s.max_power := rfl

@[simp]
theorem update_v1_interval (s : ReactorScheduler) (k : ℕ) :
    (s.update_reactor_minutes k).interval = s.interval := rfl

@[simp]
theorem update_v1_total (s : ReactorScheduler) (k : ℕ) :
    (s.update_reactor_minutes k).total_energy_consumed =
      s.total_energy_consumed + (k : ℚ) * (1 / 10 * s.max_power) * ((s.interval : ℚ) / 60) :=
  rfl

@[simp]
theorem update_v1_his (s : ReactorScheduler) (k : ℕ) :
    (s.update_reactor_minutes k).running_reactors_his =
      s.running_reactors_his ++ [k] := rfl

@[simp]
theorem update_v2_max_power (s : ReactorScheduler) (k : ℕ) :
    (s.update_reactor_minutes_v2 k).max_power = s.max_power := rfl

@[simp]
theorem update_v2_interval (s : ReactorScheduler) (k : ℕ) :
    (s.update_reactor_minutes_v2 k).interval = s.interval := rfl

@[simp]
theorem update_v2_total (s : ReactorScheduler) (k : ℕ) :
    (s.update_reactor_minutes_v2 k).total_energy_consumed =
      s.total_energy_consumed + (k : ℚ) * (1 / 10 * s.max_power) * ((s.interval : ℚ) / 60) :=
  rfl

@[simp]
theorem update_v2_his (s : ReactorScheduler) (k : ℕ) :
    (s.update_reactor_minutes_v2 k).running_reactors_his =
      s.running_reactors_his ++ [k] := rfl

theorem update_v1_running (s : ReactorScheduler) (k : ℕ) :
    (s.update_reactor_minutes k).running_reactors = s.new_running k := rfl

theorem update_v2_running (s : ReactorScheduler) (k : ℕ) :
    (s.update_reactor_minutes_v2 k).running_reactors = s.new_running k := rfl

/-- C5: each update adds exactly `k * (0.1*max_power) * (interval/60)` to the
consumed-energy accumulator (both update methods), the accumulator never
decreases, and the `[5,15,25,95]` / `max_power=100` / 20-minute scenario
yields target counts `[0,1,2,9]` and total energy `40`. -/
theorem C5_energy_accounting (s : ReactorScheduler) (k : ℕ)
    (hmp : 0 ≤ s.max_power) :
    (s.update_reactor_minutes_v2 k).total_energy_consumed =
      s.total_energy_consumed + (k : ℚ) * (1 / 10 * s.max_power) * ((s.interval : ℚ) / 60) ∧
    (s.update_reactor_minutes k).total_energy_consumed =
      s.total_energy_consumed + (k : ℚ) * (1 / 10 * s.max_power) * ((s.interval : ℚ) / 60) ∧
    s.total_energy_consumed ≤ (s.update_reactor_minutes_v2 k).total_energy_consumed ∧
    s.total_energy_consumed ≤ (s.update_reactor_minutes k).total_energy_consumed ∧
    ((ReactorScheduler.init 10 20 100).schedule_reactors
      [5, 15, 25, 95]).running_reactors_his = [0, 1, 2, 9] ∧
    ((ReactorScheduler.init 10 20 100).schedule_reactors
      [5, 15, 25, 95]).total_energy_consumed = 40 := by
  have hinc : (0 : ℚ) ≤ (k : ℚ) * (1 / 10 * s.max_power) * ((s.interval : ℚ) / 60) := by
    positivity
  refine ⟨rfl, rfl, by simp; linarith, by simp; linarith, ?_, ?_⟩
  · simp [ReactorScheduler.schedule_reactors, ReactorScheduler.init]
    norm_num [get_operational_reactors]
  · simp [ReactorScheduler.schedule_reactors, ReactorScheduler.init]
    norm_num [get_operational_reactors]

/-- Witness for C5 at a concrete state. -/
theorem C5_energy_accounting_witness :
    ((ReactorScheduler.init 10 20 100).update_reactor_minutes_v2 2).total_energy_consumed =
      (ReactorScheduler.init 10 20 100).total_energy_consumed +
        (2 : ℚ) * (1 / 10 * (ReactorScheduler.init 10 20 100).max_power) *
          (((ReactorScheduler.init 10 20 100).interval : ℚ) / 60) ∧
    ((ReactorScheduler.init 10 20 100).schedule_reactors
      [5, 15, 25, 95]).total_energy_consumed = 40 := by
  have h := C5_energy_accounting (ReactorScheduler.init 10 20 100) 2
    (by norm_num [ReactorScheduler.init])
  exact ⟨h.1, h.2.2.2.2.2⟩

theorem foldl_set_length (l acc : List ℕ) :
    (l.foldl (fun a j => a.set j 1) acc).length = acc.length := by
  induction l generalizing acc with
  | nil => rfl
  | cons j l ih => simpa using ih (acc.set j 1)

theorem foldl_set_getD (l acc : List ℕ) (i : ℕ) (hi : i < acc.length) :
    (l.foldl (fun a j => a.set j 1) acc).getD i 0 =
      if i ∈ l then 1 else acc.getD i 0 := by
  induction l generalizing acc with
  | nil => simp
  | cons j l ih =>
    show (l.foldl _ (acc.set j 1)).getD i 0 = _
    rw [ih (acc.set j 1) (by simpa using hi)]
    by_cases hmem : i ∈ l
    · simp [hmem]
    · by_cases hij : i = j
      · subst hij
        simp [hmem, List.getD_eq_getElem?_getD, List.getElem?_set_eq_of_lt _ hi]
      · have hne : i ∉ j :: l := by simp [hmem, hij]
        rw [if_neg hmem, if_neg hne, List.getD_eq_getElem?_getD,
          List.getD_eq_getElem?_getD, List.getElem?_set_ne (fun h => hij h.symm)]

/-- C10: `update_reactor_minutes` and `update_reactor_minutes_v2` agree on
every field except `relays_to_oc`; v1 leaves `relays_to_oc` unchanged, while
v2 replaces it by a fresh 16-entry list whose entry `i` is 1 exactly when
reactor `i` is in the resulting running set (so entries 10-15 stay 0). -/
theorem C10_v1_v2_refinement (s : ReactorScheduler) (k : ℕ)
    (hsub : s.running_reactors ⊆ Finset.range s.num_reactors)
    (hn : s.num_reactors ≤ 10) :
    (s.update_reactor_minutes_v2 k).num_reactors =
      (s.update_reactor_minutes k).num_reactors ∧
    (s.update_reactor_minutes_v2 k).max_power =
      (s.update_reactor_minutes k).max_power ∧
    (s.update_reactor_minutes_v2 k).reactor_minutes =
      (s.update_reactor_minutes k).reactor_minutes ∧
    (s.update_reactor_minutes_v2 k).interval =
      (s.update_reactor_minutes k).interval ∧
    (s.update_reactor_minutes_v2 k).running_reactors =
      (s.update_reactor_minutes k).running_reactors ∧
    (s.update_reactor_minutes_v2 k).total_energy_consumed =
      (s.update_reactor_minutes k).total_energy_consumed ∧
    (s.update_reactor_minutes_v2 k).running_reactors_his =
      (s.update_reactor_minutes k).running_reactors_his ∧
    (s.update_reactor_minutes k).relays_to_oc = s.relays_to_oc ∧
    (∃ l : List ℕ, (s.update_reactor_minutes_v2 k).relays_to_oc = some l ∧
      l.length = 16 ∧
      (∀ i, i < 16 →
        l.getD i 0 = if i ∈ (s.update_reactor_minutes_v2 k).running_reactors then 1 else 0) ∧
      (∀ i, 10 ≤ i → l.getD i 0 = 0)) := by
  refine ⟨rfl, rfl, rfl, rfl, rfl, rfl, rfl, rfl, ?_⟩
  refine ⟨((s.new_running k).sort (· ≤ ·)).foldl (fun l i => l.set i 1)
    (List.replicate 16 0), rfl, ?_, ?_, ?_⟩
  · rw [foldl_set_length, List.length_replicate]
  · intro i hi
    rw [foldl_set_getD _ _ i (by simpa using hi)]
    rw [update_v2_running]
    have hmem : i ∈ (s.new_running k).sort (· ≤ ·) ↔ i ∈ s.new_running k :=
      Finset.mem_sort (· ≤ ·)
    have hrep : (List.replicate 16 (0 : ℕ)).getD i 0 = 0 := by
      rw [List.getD_eq_getElem?_getD, List.getElem?_replicate]
      simp [hi]
    by_cases h : i ∈ s.new_running k
    · rw [if_pos (hmem.mpr h), if_pos h]
    · rw [if_neg (fun hc => h (hmem.mp hc)), if_neg h, hrep]
  · intro i hge
    have hnr : s.new_running k ⊆ Finset.range 10 :=
      (new_running_subset_range s k hsub).trans
        (Finset.range_subset.mpr hn)
    have hnot : i ∉ (s.new_running k).sort (· ≤ ·) := by
      rw [Finset.mem_sort]
      intro hc
      have := hnr hc
      rw [Finset.mem_range] at this
      omega
    by_cases hi : i < 16
    · rw [foldl_set_getD _ _ i (by simpa using hi)]
      have hrep : (List.replicate 16 (0 : ℕ)).getD i 0 = 0 := by
        rw [List.getD_eq_getElem?_getD, List.getElem?_replicate]
        simp [hi]
      rw [if_neg hnot, hrep]
    · apply List.getD_eq_default
      rw [foldl_set_length, List.length_replicate]
      omega

/-- Witness for C10 at a concrete state and target. -/
theorem C10_v1_v2_refinement_witness :
    (ReactorScheduler.init 10 20 100).running_reactors ⊆ Finset.range 10 ∧
    ((ReactorScheduler.init 10 20 100).update_reactor_minutes_v2 2).running_reactors =
      ((ReactorScheduler.init 10 20 100).update_reactor_minutes 2).running_reactors ∧
    (∃ l : List ℕ, ((ReactorScheduler.init 10 20 100).update_reactor_minutes_v2 2).relays_to_oc = some l ∧
      l.length = 16 ∧
      (∀ i, i < 16 → l.getD i 0 =
        if i ∈ ((ReactorScheduler.init 10 20 100).update_reactor_minutes_v2 2).running_reactors
        then 1 else 0) ∧
      (∀ i, 10 ≤ i → l.getD i 0 = 0)) := by
  have h := C10_v1_v2_refinement (ReactorScheduler.init 10 20 100) 2
    (by simp [ReactorScheduler.init]) (by norm_num [ReactorScheduler.init])
  exact ⟨by simp [ReactorScheduler.init], h.2.2.2.2.1, h.2.2.2.2.2.2.2.2⟩

theorem activate_fold_order {r : ℕ → ℕ → Prop} (k : ℕ) (st : Finset ℕ)
    (l : List ℕ) (hp : l.Pairwise r) :
    ∀ i ∈ activate_fold k st l, i ∉ st → ∀ j ∈ l, j ∉ activate_fold k st l →
      r i j := by
  induction l generalizing st with
  | nil => simp [activate_fold]
  | cons a l ih =>
    intro i hiF hist j hj hjF
    by_cases hc : st.card < k
    · have hF : activate_fold k st (a :: l) = activate_fold k (insert a st) l := by
        show activate_fold k (if st.card < k then insert a st else st) l = _
        rw [if_pos hc]
      rw [hF] at hiF hjF
      rcases List.mem_cons.mp hj with rfl | hjl
      · exact absurd (activate_fold_subset k (insert j st) l (Finset.mem_insert_self j st)) hjF
      · by_cases hist' : i ∈ insert a st
        · have : i = a := by
            rcases Finset.mem_insert.mp hist' with h | h
            · exact h
            · exact absurd h hist
          subst this
          exact (List.pairwise_cons.mp hp).1 j hjl
        · exact ih (insert a st) (List.pairwise_cons.mp hp).2 i hiF hist' j hjl hjF
    · have hF : activate_fold k st (a :: l) = st := by
        show activate_fold k (if st.card < k then insert a st else st) l = st
        rw [if_neg hc]
        exact activate_fold_of_le k st l (by omega)
      rw [hF] at hiF
      exact absurd hiF hist

theorem mapIdxFrom_getD {α : Type} (f : ℕ → α → α) (start : ℕ) (l : List α)
    (i : ℕ) (d : α) (hi : i < l.length) :
    (mapIdxFrom f start l).getD i d = f (start + i) (l.getD i d) := by
  induction l generalizing start i with
  | nil => simp at hi
  | cons a l ih =>
    cases i with
    | zero => rfl
    | succ i =>
      show (mapIdxFrom f (start + 1) l).getD i d = _
      rw [ih (start + 1) i (by simpa using hi)]
      congr 1
      omega

theorem excess_reactors_sorted (s : ReactorScheduler) :
    s.excess_reactors.Pairwise (pyRel (fun i => -(s.minutes i : ℤ))) :=
  List.sorted_insertionSort _ _

theorem reactors_by_runtime_sorted (s : ReactorScheduler) :
    s.reactors_by_runtime.Pairwise (pyRel (fun i => (s.minutes i : ℤ))) :=
  List.sorted_insertionSort _ _

/-- C3: when the target is below the active count, the update removes exactly
`active − target` reactors and every removed reactor beats every kept one in
the (descending reactor-minutes, ascending index) priority; when the target is
above, it adds exactly `target − active` inactive reactors and every added
reactor beats every untouched inactive one in the (ascending reactor-minutes,
ascending index) priority; and every reactor of the resulting active set has
its minutes incremented by the interval (others unchanged). -/
theorem C3_selection_rule (s : ReactorScheduler) (k : ℕ)
    (hsub : s.running_reactors ⊆ Finset.range s.num_reactors)
    (hlen : s.reactor_minutes.length = s.num_reactors) :
    (k < s.running_reactors.card →
      s.new_running k ⊆ s.running_reactors ∧
      (s.running_reactors \ s.new_running k).card = s.running_reactors.card - k ∧
      (∀ i ∈ s.running_reactors \ s.new_running k, ∀ j ∈ s.new_running k,
        s.minutes j < s.minutes i ∨ (s.minutes j = s.minutes i ∧ i < j))) ∧
    (s.running_reactors.card < k → k ≤ s.num_reactors →
      s.running_reactors ⊆ s.new_running k ∧
      (s.new_running k \ s.running_reactors).card = k - s.running_reactors.card ∧
      s.new_running k \ s.running_reactors ⊆ Finset.range s.num_reactors ∧
      (∀ i ∈ s.new_running k \ s.running_reactors,
        ∀ j ∈ Finset.range s.num_reactors, j ∉ s.new_running k →
          s.minutes i < s.minutes j ∨ (s.minutes i = s.minutes j ∧ i < j))) ∧
    (∀ i, i < s.num_reactors →
      (s.update_reactor_minutes_v2 k).minutes i =
        s.minutes i + (if i ∈ s.new_running k then s.interval else 0) ∧
      (s.update_reactor_minutes k).minutes i =
        s.minutes i + (if i ∈ s.new_running k then s.interval else 0)) := by
  refine ⟨?_, ?_, ?_⟩
  · intro hk
    have hnew : s.new_running k =
        s.running_reactors \
          (s.excess_reactors.take (s.running_reactors.card - k)).toFinset := by
      unfold ReactorScheduler.new_running
      rw [if_pos hk, deactivate_fold_eq_sdiff]
    set d := s.running_reactors.card - k with hd
    set T := (s.excess_reactors.take d).toFinset with hT
    have hTsub : T ⊆ s.running_reactors := excess_take_toFinset_subset s d
    have hR : s.running_reactors \ s.new_running k = T := by
      rw [hnew, Finset.sdiff_sdiff_self_left, Finset.inter_eq_right.mpr hTsub]
    refine ⟨by rw [hnew]; exact Finset.sdiff_subset, ?_, ?_⟩
    · rw [hR, excess_take_card s d (by omega)]
    · intro i hi j hj
      rw [hR] at hi
      have hjrun : j ∈ s.running_reactors := by
        rw [hnew] at hj
        exact (Finset.mem_sdiff.mp hj).1
      have hjT : j ∉ T := by
        rw [hnew] at hj
        exact (Finset.mem_sdiff.mp hj).2
      have hjL : j ∈ s.excess_reactors := by
        rw [← List.mem_toFinset, excess_reactors_toFinset]
        exact hjrun
      have hjdrop : j ∈ s.excess_reactors.drop d := by
        rcases List.mem_append.mp
          (by rw [List.take_append_drop]; exact hjL :
            j ∈ s.excess_reactors.take d ++ s.excess_reactors.drop d) with h | h
        · exact absurd (List.mem_toFinset.mpr h) hjT
        · exact h
      have hitake : i ∈ s.excess_reactors.take d := List.mem_toFinset.mp hi
      have hsorted := excess_reactors_sorted s
      have hpw : ∀ x ∈ s.excess_reactors.take d, ∀ y ∈ s.excess_reactors.drop d,
          pyRel (fun i => -(s.minutes i : ℤ)) x y := by
        have := hsorted
        rw [← List.take_append_drop d s.excess_reactors] at this
        exact (List.pairwise_append.mp this).2.2
      have hrel := hpw i hitake j hjdrop
      simp only [pyRel] at hrel
      have hne : i ≠ j := fun he => hjT (he ▸ hi)
      rcases hrel with h | ⟨h, h'⟩
      · left
        omega
      · right
        constructor
        · omega
        · omega
  · intro hk hk2
    have hnew : s.new_running k =
        activate_fold k s.running_reactors s.reactors_by_runtime := by
      unfold ReactorScheduler.new_running
      rw [if_neg (by omega), if_pos hk]
    have hsubF : s.running_reactors ⊆ s.new_running k := by
      rw [hnew]
      exact activate_fold_subset _ _ _
    have hcard : (s.new_running k).card = k := new_running_card s k hsub hk2
    refine ⟨hsubF, ?_, ?_, ?_⟩
    · rw [Finset.card_sdiff hsubF, hcard]
    · exact (Finset.sdiff_subset).trans (new_running_subset_range s k hsub)
    · intro i hi j hj hjF
      have hiF : i ∈ s.new_running k := (Finset.mem_sdiff.mp hi).1
      have hist : i ∉ s.running_reactors := (Finset.mem_sdiff.mp hi).2
      have hjM : j ∈ s.reactors_by_runtime := by
        rw [← List.mem_toFinset, reactors_by_runtime_toFinset]
        exact hj
      have hrel := activate_fold_order k s.running_reactors s.reactors_by_runtime
        (reactors_by_runtime_sorted s) i (hnew ▸ hiF) hist j hjM (hnew ▸ hjF)
      simp only [pyRel] at hrel
      have hne : i ≠ j := fun he => hjF (he ▸ hiF)
      rcases hrel with h | ⟨h, h'⟩
      · left
        omega
      · right
        constructor
        · omega
        · omega
  · intro i hi
    have hilen : i < s.reactor_minutes.length := by omega
    constructor
    · show (mapIdxFrom _ 0 s.reactor_minutes).getD i 0 = _
      rw [mapIdxFrom_getD _ 0 s.reactor_minutes i 0 hilen]
      simp only [Nat.zero_add]
      split_ifs <;> simp [ReactorScheduler.minutes]
    · show (mapIdxFrom _ 0 s.reactor_minutes).getD i 0 = _
      rw [mapIdxFrom_getD _ 0 s.reactor_minutes i 0 hilen]
      simp only [Nat.zero_add]
      split_ifs <;> simp [ReactorScheduler.minutes]

/-- Concrete scheduler state with three active reactors, used as witness input. -/
def exampleSchedulerA : ReactorScheduler :=
  ⟨10, 100, [5, 0, 3, 2, 8, 1, 9, 4, 7, 6], 20, {0, 1, 2}, 0, [], none⟩

/-- Concrete two-reactor scheduler state (the spec's wear-leveling example
with `reactor_minutes = [5, 0]`), used as witness input. -/
def exampleSchedulerB : ReactorScheduler :=
  ⟨2, 100, [5, 0], 20, ∅, 0, [], none⟩

/-- Witness for C3: the deactivation branch on a 3-active state with target 1,
the activation branch on the `[5,0]` wear-leveling state with target 1, and
the concrete selection outcome (reactor 1, the least-used one, is chosen). -/
theorem C3_selection_rule_witness :
    (exampleSchedulerA.new_running 1 ⊆ exampleSchedulerA.running_reactors ∧
      (exampleSchedulerA.running_reactors \ exampleSchedulerA.new_running 1).card =
        exampleSchedulerA.running_reactors.card - 1 ∧
      (∀ i ∈ exampleSchedulerA.running_reactors \ exampleSchedulerA.new_running 1,
        ∀ j ∈ exampleSchedulerA.new_running 1,
          exampleSchedulerA.minutes j < exampleSchedulerA.minutes i ∨
            (exampleSchedulerA.minutes j = exampleSchedulerA.minutes i ∧ i < j))) ∧
    (exampleSchedulerB.running_reactors ⊆ exampleSchedulerB.new_running 1 ∧
      (exampleSchedulerB.new_running 1 \ exampleSchedulerB.running_reactors).card =
        1 - exampleSchedulerB.running_reactors.card ∧
      exampleSchedulerB.new_running 1 \ exampleSchedulerB.running_reactors ⊆
        Finset.range exampleSchedulerB.num_reactors ∧
      (∀ i ∈ exampleSchedulerB.new_running 1 \ exampleSchedulerB.running_reactors,
        ∀ j ∈ Finset.range exampleSchedulerB.num_reactors,
          j ∉ exampleSchedulerB.new_running 1 →
            exampleSchedulerB.minutes i < exampleSchedulerB.minutes j ∨
              (exampleSchedulerB.minutes i = exampleSchedulerB.minutes j ∧ i < j))) ∧
    exampleSchedulerB.new_running 1 = {1} := by
  refine ⟨(C3_selection_rule exampleSchedulerA 1 (by decide) (by decide)).1 (by decide),
    (C3_selection_rule exampleSchedulerB 1 (by decide) (by decide)).2.1
      (by decide) (by decide), by decide⟩

/-- Method `InterOpWorker.calculate_efficiency_for_x`
(src/inter_operv2.py, lines 531-541): normalize the trace by
`max_power = raw_max_power / x`, run a fresh scheduler over the resulting
percentages, and divide consumed energy by generated energy. -/
def calculate_efficiency_for_x (max_power0 : ℚ) (solar_data : List ℚ)
    (interval_minutes : ℕ) (x : ℚ) : ℚ :=
  let max_power := max_power0 / x
  let power_percentages := solar_data.map (fun d => d / max_power * 100)
  let scheduler :=
    (ReactorScheduler.init 10 interval_minutes max_power).schedule_reactors
      power_percentages
  scheduler.calculate_efficiency (solar_data.sum * ((interval_minutes : ℚ) / 60))

/-- One iteration of the `find_best_x` loop (src/inter_operv2.py,
lines 547-551): keep the new x only on strict improvement. -/
def best_step (eff : ℚ → ℚ) (b : Option ℚ × ℚ) (x : ℚ) : Option ℚ × ℚ :=
  if b.2 < eff x then (some x, eff x) else b

/-- Method `InterOpWorker.find_best_x` (src/inter_operv2.py, lines 543-552),
starting from `best_efficiency = 0`, `best_x = None`. -/
def find_best_x (max_power0 : ℚ) (solar_data : List ℚ) (interval_minutes : ℕ)
    (x_values : List ℚ) : Option ℚ × ℚ :=
  x_values.foldl (best_step (calculate_efficiency_for_x max_power0 solar_data interval_minutes))
    (none, 0)

/-- The 50 evenly spaced scale factors `np.linspace(1.0, 2.0, 50)`
(src/inter_operv2.py, line 192). -/
def x_values : List ℚ :=
  (List.range 50).map (fun i : ℕ => 1 + (i : ℚ) / 49)

/-- Loop invariant of `find_best_x` after processing prefix `p`: either no
positive efficiency was seen yet and the accumulator still holds
`(None, 0)`, or the accumulator holds the first maximizer of the prefix. -/
def BestInv (eff : ℚ → ℚ) (p : List ℚ) (b : Option ℚ × ℚ) : Prop :=
  (b = (none, 0) ∧ ∀ y ∈ p, eff y ≤ 0) ∨
  (∃ i, i < p.length ∧ b = (some (p.getD i 0), eff (p.getD i 0)) ∧
    0 < eff (p.getD i 0) ∧ (∀ y ∈ p, eff y ≤ eff (p.getD i 0)) ∧
    (∀ j, j < i → eff (p.getD j 0) < eff (p.getD i 0)))

theorem getD_append_lt (p q : List ℚ) (i : ℕ) (hi : i < p.length) :
    (p ++ q).getD i 0 = p.getD i 0 := by
  rw [List.getD_eq_getElem?_getD, List.getD_eq_getElem?_getD,
    List.getElem?_append_left hi]

theorem getD_mem_of_lt (p : List ℚ) (j : ℕ) (hj : j < p.length) :
    p.getD j 0 ∈ p := by
  have h : p.getD j 0 = p.get ⟨j, hj⟩ := by
    rw [List.getD_eq_getElem?_getD, List.getElem?_eq_getElem hj]
    rfl
  rw [h]
  exact p.get_mem j hj

theorem getD_append_self (p : List ℚ) (x : ℚ) :
    (p ++ [x]).getD p.length 0 = x := by
  rw [List.getD_eq_getElem?_getD, List.getElem?_append_right (le_refl _)]
  simp

theorem best_step_inv (eff : ℚ → ℚ) (p : List ℚ) (b : Option ℚ × ℚ) (x : ℚ)
    (h : BestInv eff p b) : BestInv eff (p ++ [x]) (best_step eff b x) := by
  rcases h with ⟨hb, hle⟩ | ⟨i, hi, hb, hpos, hmax, hfirst⟩
  · subst hb
    unfold best_step
    by_cases hc : (0 : ℚ) < eff x
    · right
      refine ⟨p.length, by simp, ?_, ?_, ?_, ?_⟩
      · rw [if_pos hc, getD_append_self]
      · rw [getD_append_self]
        exact hc
      · intro y hy
        rw [getD_append_self]
        rcases List.mem_append.mp hy with hy | hy
        · exact (hle y hy).trans hc.le
        · rw [List.mem_singleton.mp hy]
      · intro j hj
        rw [getD_append_self, getD_append_lt p [x] j hj]
        exact lt_of_le_of_lt (hle _ (getD_mem_of_lt p j hj)) hc
    · left
      refine ⟨by simp [if_neg hc], ?_⟩
      intro y hy
      rcases List.mem_append.mp hy with hy | hy
      · exact hle y hy
      · rw [List.mem_singleton.mp hy]
        exact not_lt.mp hc
  · subst hb
    unfold best_step
    simp only
    by_cases hc : eff (p.getD i 0) < eff x
    · rw [if_pos hc]
      right
      refine ⟨p.length, by simp, ?_, ?_, ?_, ?_⟩
      · rw [getD_append_self]
      · rw [getD_append_self]
        exact hpos.trans hc
      · intro y hy
        rw [getD_append_self]
        rcases List.mem_append.mp hy with hy | hy
        · exact (hmax y hy).trans hc.le
        · rw [List.mem_singleton.mp hy]
      · intro j hj
        rw [getD_append_self, getD_append_lt p [x] j hj]
        exact lt_of_le_of_lt (hmax _ (getD_mem_of_lt p j hj)) hc
    · rw [if_neg hc]
      right
      refine ⟨i, by simp; omega, ?_, ?_, ?_, ?_⟩
      · rw [getD_append_lt p [x] i hi]
      · rw [getD_append_lt p [x] i hi]
        exact hpos
      · intro y hy
        rw [getD_append_lt p [x] i hi]
        rcases List.mem_append.mp hy with hy | hy
        · exact hmax y hy
        · rw [List.mem_singleton.mp hy]
          exact not_lt.mp hc
      · intro j hj
        rw [getD_append_lt p [x] i hi, getD_append_lt p [x] j (by omega)]
        exact hfirst j hj

theorem best_fold_inv (eff : ℚ → ℚ) (xs p : List ℚ) (b : Option ℚ × ℚ)
    (h : BestInv eff p b) :
    BestInv eff (p ++ xs) (xs.foldl (best_step eff) b) := by
  induction xs generalizing p b with
  | nil => simpa using h
  | cons x xs ih =>
    have := ih (p ++ [x]) (best_step eff b x) (best_step_inv eff p b x h)
    simpa [List.append_assoc] using this

theorem x_values_getD (i : ℕ) (hi : i < 50) :
    x_values.getD i 0 = 1 + (i : ℚ) / 49 := by
  rw [List.getD_eq_getElem?_getD]
  unfold x_values
  rw [List.getElem?_map, List.getElem?_range hi]
  rfl

theorem x_values_length : x_values.length = 50 := by
  unfold x_values
  rw [List.length_map, List.length_range]

/-- Amendment of C6: whenever some scale factor attains positive efficiency,
`find_best_x` over the 50 linspace values returns the first maximizer, an x
in `[1, 2]`; with no positive efficiency it returns `(None, 0)` instead
(see the counterexample theorem for the latter case). -/
theorem C6_find_best_x_first_argmax (max_power0 : ℚ) (solar_data : List ℚ)
    (interval_minutes : ℕ)
    (hpos : ∃ x ∈ x_values,
      0 < calculate_efficiency_for_x max_power0 solar_data interval_minutes x) :
    ∃ i, i < 50 ∧
      find_best_x max_power0 solar_data interval_minutes x_values =
        (some (x_values.getD i 0),
          calculate_efficiency_for_x max_power0 solar_data interval_minutes
            (x_values.getD i 0)) ∧
      1 ≤ x_values.getD i 0 ∧ x_values.getD i 0 ≤ 2 ∧
      (∀ y ∈ x_values,
        calculate_efficiency_for_x max_power0 solar_data interval_minutes y ≤
          calculate_efficiency_for_x max_power0 solar_data interval_minutes
            (x_values.getD i 0)) ∧
      (∀ j, j < i →
        calculate_efficiency_for_x max_power0 solar_data interval_minutes
            (x_values.getD j 0) <
          calculate_efficiency_for_x max_power0 solar_data interval_minutes
            (x_values.getD i 0)) := by
  set eff := calculate_efficiency_for_x max_power0 solar_data interval_minutes with heff
  have hinv : BestInv eff x_values (x_values.foldl (best_step eff) (none, 0)) := by
    have := best_fold_inv eff x_values [] (none, 0) (Or.inl ⟨rfl, by simp⟩)
    simpa using this
  rcases hinv with ⟨_, hle⟩ | ⟨i, hi, hb, hpos', hmax, hfirst⟩
  · obtain ⟨x, hx, hx'⟩ := hpos
    exact absurd (hle x hx) (by linarith)
  · rw [x_values_length] at hi
    refine ⟨i, hi, ?_, ?_, ?_, hmax, hfirst⟩
    · rw [find_best_x, ← heff, hb]
    · rw [x_values_getD i hi]
      have : (0 : ℚ) ≤ (i : ℚ) / 49 := by positivity
      linarith
    · rw [x_values_getD i hi]
      have hle : (i : ℚ) ≤ 49 := by
        exact_mod_cast (by omega : i ≤ 49)
      have hdiv : (i : ℚ) / 49 ≤ 1 := by
        rw [div_le_one (by norm_num : (0 : ℚ) < 49)]
        exact hle
      linarith

theorem calculate_efficiency_for_x_nil (max_power0 : ℚ) (interval_minutes : ℕ)
    (x : ℚ) : calculate_efficiency_for_x max_power0 [] interval_minutes x = 0 := by
  unfold calculate_efficiency_for_x
  simp [ReactorScheduler.schedule_reactors, ReactorScheduler.calculate_efficiency]

theorem best_fold_const (eff : ℚ → ℚ) (xs : List ℚ) (acc : Option ℚ × ℚ)
    (h : ∀ x ∈ xs, eff x ≤ acc.2) : xs.foldl (best_step eff) acc = acc := by
  induction xs with
  | nil => rfl
  | cons x xs ih =>
    show List.foldl _ (best_step eff acc x) xs = acc
    rw [best_step, if_neg (not_lt.mpr (h x (List.mem_cons_self x xs)))]
    exact ih (fun y hy => h y (List.mem_cons_of_mem x hy))

/-- Counterexample to C6 as stated: on the empty historical trace every scale
factor yields efficiency 0, the strict-improvement test never fires, and
`find_best_x` returns `(None, 0)` - no x in `[1.0, 2.0]` is returned at all. -/
theorem C6_find_best_x_counterexample :
    find_best_x 100 [] 20 x_values = (none, 0) ∧
    ∀ x : ℚ, 1 ≤ x → x ≤ 2 → (find_best_x 100 [] 20 x_values).1 ≠ some x := by
  have h : find_best_x 100 [] 20 x_values = (none, 0) := by
    unfold find_best_x
    exact best_fold_const _ x_values (none, 0)
      (fun x _ => by rw [calculate_efficiency_for_x_nil])
  refine ⟨h, fun x _ _ => ?_⟩
  rw [h]
  simp

theorem calculate_efficiency_for_x_single :
    calculate_efficiency_for_x 100 [100] 20 1 = 1 := by
  unfold calculate_efficiency_for_x
  simp only [List.map_cons, List.map_nil, div_one]
  norm_num
  rw [ReactorScheduler.schedule_reactors]
  simp only [List.foldl_cons, List.foldl_nil]
  norm_num [get_operational_reactors]
  rw [ReactorScheduler.calculate_efficiency]
  norm_num [ReactorScheduler.init]

/-- Witness for the amended C6 on the one-sample trace `[100]`, where every
scale factor is evaluated and the maximum efficiency 1 is attained first at
`x = 1`. -/
theorem C6_find_best_x_first_argmax_witness :
    ∃ i, i < 50 ∧
      find_best_x 100 [100] 20 x_values =
        (some (x_values.getD i 0),
          calculate_efficiency_for_x 100 [100] 20 (x_values.getD i 0)) ∧
      1 ≤ x_values.getD i 0 ∧ x_values.getD i 0 ≤ 2 ∧
      (∀ y ∈ x_values, calculate_efficiency_for_x 100 [100] 20 y ≤
        calculate_efficiency_for_x 100 [100] 20 (x_values.getD i 0)) ∧
      (∀ j, j < i → calculate_efficiency_for_x 100 [100] 20 (x_values.getD j 0) <
        calculate_efficiency_for_x 100 [100] 20 (x_values.getD i 0)) := by
  apply C6_find_best_x_first_argmax 100 [100] 20
  refine ⟨1, ?_, ?_⟩
  · unfold x_values
    refine List.mem_map.mpr ⟨0, List.mem_range.mpr (by norm_num), by norm_num⟩
  · rw [calculate_efficiency_for_x_single]
    norm_num

/-- One shift/feedback round of the Modbus CRC16 loop
(src/gearpump_control.py, lines 110-115; identical code in
pressure_sensor.py, leakage_sensor.py, voltage_collector.py). -/
def crc16_step (crc : ℕ) : ℕ :=
  if crc % 2 = 1 then (crc / 2) ^^^ 0xA001 else crc / 2

/-- Eight feedback rounds for one byte. -/
def crc16_bits : ℕ → ℕ → ℕ
  | 0, crc => crc
  | n + 1, crc => crc16_bits n (crc16_step crc)

/-- Method `GearPumpController._calculate_crc` (src/gearpump_control.py,
lines 100-116): seed 0xFFFF, XOR each byte, eight 0xA001-feedback rounds. -/
def calculate_crc (data : List ℕ) : ℕ :=
  data.foldl (fun crc byte => crc16_bits 8 (crc ^^^ byte)) 0xFFFF

/-- A Modbus-RTU frame: at least address + function + 2 CRC bytes, all
bytes below 256, terminated by the little-endian CRC16 of the body. -/
def isModbusRTUFrame (frame : List ℕ) : Prop :=
  4 ≤ frame.length ∧ (∀ b ∈ frame, b < 256) ∧
  frame = frame.take (frame.length - 2) ++
    [calculate_crc (frame.take (frame.length - 2)) % 256,
      calculate_crc (frame.take (frame.length - 2)) / 256]

instance (frame : List ℕ) : Decidable (isModbusRTUFrame frame) := by
  unfold isModbusRTUFrame
  infer_instance

/-- Method `_construct_read_request` (src/gearpump_control.py, lines 216-228):
`struct.pack('>BBHH', slave, 0x03, addr, count)` plus little-endian CRC. -/
def construct_read_request (slave_id register_address register_count : ℕ) :
    List ℕ :=
  let request := [slave_id, 0x03, register_address / 256, register_address % 256,
    register_count / 256, register_count % 256]
  request ++ [calculate_crc request % 256, calculate_crc request / 256]

/-- Method `_construct_write_request` (src/gearpump_control.py, lines 292-304). -/
def construct_write_request (slave_id register_address value : ℕ) : List ℕ :=
  let request := [slave_id, 0x06, register_address / 256, register_address % 256,
    value / 256, value % 256]
  request ++ [calculate_crc request % 256, calculate_crc request / 256]

/-- Method `_construct_read_coils_request` (src/gearpump_control.py,
lines 121-136). -/
def construct_read_coils_request (slave_id coil_address coil_count : ℕ) :
    List ℕ :=
  let request := [slave_id, 0x01, coil_address / 256, coil_address % 256,
    coil_count / 256, coil_count % 256]
  request ++ [calculate_crc request % 256, calculate_crc request / 256]

/-- Method `PressureSensor.build_modbus_request` (src/pressure_sensor.py,
lines 75-94) for a read (0x03) or single-write (0x06) function code. -/
def build_modbus_request (address function_code start_address value : ℕ) :
    List ℕ :=
  let request := [address, function_code, start_address / 256,
    start_address % 256, value / 256, value % 256]
  request ++ [calculate_crc request % 256, calculate_crc request / 256]

/-- Method `RelayControl.calculate_checksum` (src/relay_control.py,
lines 29-32): 8-bit sum of the first 12 bytes - not a CRC. -/
def relay_calculate_checksum (data : List ℕ) : ℕ :=
  (data.take 12).sum % 256

/-- Method `RelayControl.create_command` (src/relay_control.py, lines 34-40):
header `0x48 0x3A`, address, command, data, sum-checksum, trailer `0x45 0x44`. -/
def relay_create_command (address cmd : ℕ) (data_bytes : List ℕ) : List ℕ :=
  let command := [0x48, 0x3A, address, cmd] ++ data_bytes
  (command ++ [relay_calculate_checksum command]) ++ [0x45, 0x44]

/-- Method `PowerSupplyControl.send_command` (src/power_supply.py,
lines 49-54): the ASCII bytes of `ADDR {address}:{command}\n`. -/
def power_supply_full_command (address_digits command_bytes : List ℕ) :
    List ℕ :=
  [65, 68, 68, 82, 32] ++ address_digits ++ [58] ++ command_bytes ++ [10]

/-- The concrete power-supply request `ADDR 1:VOLT 10\n` sent by
`set_voltage(10)` at device address 1. -/
def power_supply_volt10_frame : List ℕ :=
  power_supply_full_command [49] [86, 79, 76, 84, 32, 49, 48]

theorem crc16_step_lt (crc : ℕ) (h : crc < 65536) : crc16_step crc < 65536 := by
  unfold crc16_step
  split_ifs
  · have h1 : crc / 2 < 32768 := by omega
    have := Nat.xor_lt_two_pow (n := 16) (by omega : crc / 2 < 2 ^ 16)
      (by norm_num : 0xA001 < 2 ^ 16)
    simpa using this
  · omega

theorem crc16_bits_lt (n crc : ℕ) (h : crc < 65536) : crc16_bits n crc < 65536 := by
  induction n generalizing crc with
  | zero => exact h
  | succ n ih => exact ih _ (crc16_step_lt crc h)

theorem calculate_crc_lt (data : List ℕ) (hd : ∀ b ∈ data, b < 256) :
    calculate_crc data < 65536 := by
  unfold calculate_crc
  have key : ∀ (l : List ℕ), (∀ b ∈ l, b < 256) → ∀ (crc : ℕ), crc < 65536 →
      l.foldl (fun crc byte => crc16_bits 8 (crc ^^^ byte)) crc < 65536 := by
    intro l
    induction l with
    | nil => intro _ crc h; exact h
    | cons b l ih =>
      intro hl crc h
      refine ih (fun x hx => hl x (List.mem_cons_of_mem b hx)) _
        (crc16_bits_lt 8 _ ?_)
      have hb : b < 256 := hl b (List.mem_cons_self b l)
      have := Nat.xor_lt_two_pow (n := 16) (by omega : crc < 2 ^ 16)
        (by omega : b < 2 ^ 16)
      simpa using this
  exact key data hd 0xFFFF (by norm_num)

theorem isModbus_body_crc (body : List ℕ) (h2 : 2 ≤ body.length)
    (hb : ∀ b ∈ body, b < 256) :
    isModbusRTUFrame
      (body ++ [calculate_crc body % 256, calculate_crc body / 256]) := by
  have hcrc := calculate_crc_lt body hb
  have ht : (body ++ [calculate_crc body % 256, calculate_crc body / 256]).take
      ((body ++ [calculate_crc body % 256, calculate_crc body / 256]).length - 2) =
      body := by
    have hlen : (body ++ [calculate_crc body % 256, calculate_crc body / 256]).length
        = body.length + 2 := by simp
    rw [hlen]
    have : body.length + 2 - 2 = body.length := by omega
    rw [this]
    exact List.take_left body _
  refine ⟨by simp; omega, ?_, ?_⟩
  · intro b hbmem
    rcases List.mem_append.mp hbmem with h | h
    · exact hb b h
    · rcases List.mem_cons.mp h with rfl | h
      · omega
      · rcases List.mem_cons.mp h with rfl | h
        · omega
        · simp at h
  · rw [ht]

set_option maxRecDepth 100000

/-- C7 amended: the gear-pump, pressure-sensor (and leak-sensor, which shares
the identical constructor) requests are genuine Modbus-RTU frames terminated
by the little-endian CRC16 (seed 0xFFFF, 0xA001 feedback); but the relay bank
speaks a proprietary `0x48 0x3A ... sum-checksum ... 0x45 0x44` framing and
the power supply speaks ASCII `ADDR n:CMD` lines - neither is Modbus-RTU. -/
theorem C7_modbus_framing (slave addr cnt value fc : ℕ)
    (hs : slave < 256) (ha : addr < 65536) (hc : cnt < 65536)
    (hv : value < 65536) (hf : fc < 256) :
    isModbusRTUFrame (construct_read_request slave addr cnt) ∧
    isModbusRTUFrame (construct_write_request slave addr value) ∧
    isModbusRTUFrame (construct_read_coils_request slave addr cnt) ∧
    isModbusRTUFrame (build_modbus_request slave fc addr value) ∧
    ¬ isModbusRTUFrame (relay_create_command 1 0x57 (List.replicate 8 0)) ∧
    ¬ isModbusRTUFrame power_supply_volt10_frame := by
  refine ⟨?_, ?_, ?_, ?_, by decide, by decide⟩
  · apply isModbus_body_crc _ (by simp)
    intro b hb
    simp only [List.mem_cons, List.not_mem_nil, or_false] at hb
    rcases hb with rfl | rfl | rfl | rfl | rfl | rfl <;> omega
  · apply isModbus_body_crc _ (by simp)
    intro b hb
    simp only [List.mem_cons, List.not_mem_nil, or_false] at hb
    rcases hb with rfl | rfl | rfl | rfl | rfl | rfl <;> omega
  · apply isModbus_body_crc _ (by simp)
    intro b hb
    simp only [List.mem_cons, List.not_mem_nil, or_false] at hb
    rcases hb with rfl | rfl | rfl | rfl | rfl | rfl <;> omega
  · apply isModbus_body_crc _ (by simp)
    intro b hb
    simp only [List.mem_cons, List.not_mem_nil, or_false] at hb
    rcases hb with rfl | rfl | rfl | rfl | rfl | rfl <;> omega

/-- Counterexample to C7 as stated: the relay bank's write request (a real
frame built by `control_relay`) and the power supply's `set_voltage` request
are not Modbus-RTU frames. -/
theorem C7_modbus_framing_counterexample :
    ¬ isModbusRTUFrame (relay_create_command 1 0x57 (List.replicate 8 0)) ∧
    ¬ isModbusRTUFrame power_supply_volt10_frame := by
  constructor
  · decide
  · decide

/-- Witness for the amended C7 at the device's real register address
(gear-pump flow register 1214) and a real rotate-rate value (1340). -/
theorem C7_modbus_framing_witness :
    isModbusRTUFrame (construct_read_request 1 1214 1) ∧
    isModbusRTUFrame (construct_write_request 1 1214 1340) := by
  have h := C7_modbus_framing 1 1214 1 1340 3 (by norm_num) (by norm_num)
    (by norm_num) (by norm_num) (by norm_num)
  exact ⟨h.1, h.2.1⟩

/-- Error taxonomy of the gear-pump Modbus parsers
(src/gearpump_control.py, lines 34-44): `incomplete` and `badByteCount`
model `ModbusError`, `crcMismatch` models `CRCMismatchError`, and
`exceptionCode` models `ModbusExceptionError`. -/
inductive ModbusErr where
  | incomplete (expected got : ℕ)
  | exceptionCode (code : ℕ)
  | badByteCount (got expected : ℕ)
  | crcMismatch
  deriving DecidableEq

/-- True for the transport-level (frame) errors, false for the device
exception. -/
def ModbusErr.isFrameError : ModbusErr → Bool
  | .exceptionCode _ => false
  | _ => true

/-- Method `GearPumpController._parse_read_response`
(src/gearpump_control.py, lines 230-270), check order as in the source:
length, exception function code `0x83`, byte count, CRC. -/
def parse_read_response (response : List ℕ) (register_count : ℕ) :
    Except ModbusErr (List ℕ) :=
  if response.length < 5 + 2 * register_count then
    .error (.incomplete (5 + 2 * register_count) response.length)
  else if response.getD 1 0 = 0x83 then
    .error (.exceptionCode (response.getD 2 0))
  else if response.getD 2 0 ≠ 2 * register_count then
    .error (.badByteCount (response.getD 2 0) (2 * register_count))
  else if calculate_crc (response.take (response.length - 2)) ≠
      response.getD (response.length - 2) 0 +
        256 * response.getD (response.length - 1) 0 then
    .error .crcMismatch
  else
    .ok ((List.range register_count).map (fun i =>
      256 * response.getD (3 + 2 * i) 0 + response.getD (3 + 2 * i + 1) 0))

/-- Method `GearPumpController._parse_write_response`
(src/gearpump_control.py, lines 306-339): length, exception function code
`0x86`, CRC, then echoed (address, value). -/
def parse_write_response (response : List ℕ) : Except ModbusErr (ℕ × ℕ) :=
  if response.length < 8 then
    .error (.incomplete 8 response.length)
  else if response.getD 1 0 = 0x86 then
    .error (.exceptionCode (response.getD 2 0))
  else if calculate_crc (response.take (response.length - 2)) ≠
      response.getD (response.length - 2) 0 +
        256 * response.getD (response.length - 1) 0 then
    .error .crcMismatch
  else
    .ok (256 * response.getD 2 0 + response.getD 3 0,
      256 * response.getD 4 0 + response.getD 5 0)

/-- A well-formed read response whose function code `0x93` has the high bit
set but is not `0x83`: the parser accepts it. -/
def read_response_fc93 : List ℕ :=
  let body := [1, 0x93, 2, 0, 5]
  body ++ [calculate_crc body % 256, calculate_crc body / 256]

/-- Counterexample to C8 as stated: a CRC-valid response whose function code
has the high bit set (`0x93`) is parsed as a successful read, not as a device
exception - the parser only compares against the single value `fc | 0x80`. -/
theorem C8_parse_exception_counterexample :
    128 ≤ read_response_fc93.getD 1 0 ∧
    parse_read_response read_response_fc93 1 = .ok [5] := by
  constructor
  · decide
  · rfl

/-- C8 amended: a response shorter than the minimum length for the function
code yields the frame error `incomplete` (even when its function code has the
high bit set); an adequately long response whose function code equals the
request code with the high bit set (`0x83` read / `0x86` write) yields the
device exception carrying byte 2 as exception code, and this is checked
before the CRC; otherwise a CRC mismatch yields the frame error
`crcMismatch`. The parsers are pure functions of the response bytes - they
never retry. -/
theorem C8_parse_error_taxonomy (response : List ℕ) (register_count : ℕ) :
    (response.length < 5 + 2 * register_count →
      parse_read_response response register_count =
        .error (.incomplete (5 + 2 * register_count) response.length)) ∧
    (5 + 2 * register_count ≤ response.length → response.getD 1 0 = 0x83 →
      parse_read_response response register_count =
        .error (.exceptionCode (response.getD 2 0))) ∧
    (5 + 2 * register_count ≤ response.length → response.getD 1 0 ≠ 0x83 →
      response.getD 2 0 = 2 * register_count →
      calculate_crc (response.take (response.length - 2)) ≠
        response.getD (response.length - 2) 0 +
          256 * response.getD (response.length - 1) 0 →
      parse_read_response response register_count = .error .crcMismatch) ∧
    (response.length < 8 →
      parse_write_response response = .error (.incomplete 8 response.length)) ∧
    (8 ≤ response.length → response.getD 1 0 = 0x86 →
      parse_write_response response =
        .error (.exceptionCode (response.getD 2 0))) ∧
    (8 ≤ response.length → response.getD 1 0 ≠ 0x86 →
      calculate_crc (response.take (response.length - 2)) ≠
        response.getD (response.length - 2) 0 +
          256 * response.getD (response.length - 1) 0 →
      parse_write_response response = .error .crcMismatch) := by
  refine ⟨?_, ?_, ?_, ?_, ?_, ?_⟩
  · intro h
    unfold parse_read_response
    rw [if_pos h]
  · intro h hfc
    unfold parse_read_response
    rw [if_neg (not_lt.mpr h), if_pos hfc]
  · intro h hfc hbc hcrc
    unfold parse_read_response
    rw [if_neg (not_lt.mpr h), if_neg hfc, if_neg (by omega), if_pos hcrc]
  · intro h
    unfold parse_write_response
    rw [if_pos h]
  · intro h hfc
    unfold parse_write_response
    rw [if_neg (not_lt.mpr h), if_pos hfc]
  · intro h hfc hcrc
    unfold parse_write_response
    rw [if_neg (not_lt.mpr h), if_neg hfc, if_pos hcrc]

/-- Witness for the amended C8: a truncated exception frame yields the frame
error, a full-length `0x83` frame yields the device exception with its code,
and a CRC-corrupted ordinary frame yields the CRC frame error. -/
theorem C8_parse_error_taxonomy_witness :
    parse_read_response [1, 131, 2] 1 = .error (.incomplete 7 3) ∧
    parse_read_response [1, 131, 2, 9, 9, 9, 9] 1 =
      .error (.exceptionCode 2) ∧
    parse_read_response [1, 3, 2, 0, 5, 0, 0] 1 = .error .crcMismatch ∧
    parse_write_response [1, 134, 2, 9, 9, 9, 9, 9] =
      .error (.exceptionCode 2) := by
  have h1 := (C8_parse_error_taxonomy [1, 131, 2] 1).1 (by norm_num)
  have h2 := (C8_parse_error_taxonomy [1, 131, 2, 9, 9, 9, 9] 1).2.1
    (by norm_num) (by decide)
  have h3 := (C8_parse_error_taxonomy [1, 3, 2, 0, 5, 0, 0] 1).2.2.1
    (by norm_num) (by decide) (by decide) (by decide)
  have h4 := (C8_parse_error_taxonomy [1, 134, 2, 9, 9, 9, 9, 9] 1).2.2.2.2.1
    (by norm_num) (by decide)
  exact ⟨h1, h2, h3, h4⟩

/-- Method `PowerSupplyWorker.check_set_voltage` (src/power_supply.py,
lines 330-340): confirm only on exact equality of the read-back set voltage
with the commanded value; otherwise resend and re-schedule the same check. -/
def check_set_voltage (voltage_set value : ℚ) : Bool :=
  voltage_set = value

/-- Method `GearpumpControlWorker.check_rotate_rate`
(src/gearpump_control.py, lines 771-785): confirm when the observed rotate
rate is strictly within 10 units of the commanded one. -/
def check_rotate_rate (cur_rotate_rate rotate_rate : ℤ) : Bool :=
  |cur_rotate_rate - rotate_rate| < 10

/-- Method `ServoWorker.check_position_close` (src/servo_control.py,
lines 189-201): confirm when the polled position has passed 3000. -/
def check_position_close (pos : ℤ) : Bool :=
  3000 ≤ pos

/-- Method `ServoWorker.check_position_open` (src/servo_control.py,
lines 213-225): confirm when the polled position is at or below 2200. -/
def check_position_open (pos : ℤ) : Bool :=
  pos ≤ 2200

/-- Methods `ServoWorker.check_torque_close` / `check_torque_open`
(src/servo_control.py, lines 237-249 and 261-273): confirm when the polled
load is exactly 0. -/
def check_torque (load : ℤ) : Bool :=
  load = 0

/-- Method `RelayControlWorker.check_relay_state` (src/relay_control.py,
lines 140-158): confirm on exact equality of the read-back channel list. -/
def check_relay_state (channel_states states : List ℕ) : Bool :=
  channel_states = states

/-- Number of consecutive command re-issues a checker performs over a stream
of observations: one per leading observation that fails to confirm (each
mismatch re-sends the same command and schedules the same check again). -/
def reissue_streak {α : Type} (confirm : α → Bool) (obs : List α) : ℕ :=
  (obs.takeWhile (fun o => !confirm o)).length

/-- Counterexample to C9 as stated: the supply-voltage check does not accept
a ±10 tolerance (95 vs 100 is rejected), and the rotate-rate check rejects a
deviation of exactly 10 units, so neither matches the claimed "within ±10". -/
theorem C9_tolerance_counterexample :
    ((95 : ℚ) - 100 ≥ -10 ∧ (95 : ℚ) - 100 ≤ 10 ∧
      check_set_voltage 95 100 = false) ∧
    (|(10 : ℤ) - 0| ≤ 10 ∧ check_rotate_rate 10 0 = false) := by
  refine ⟨⟨by norm_num, by norm_num, ?_⟩, by decide, by decide⟩
  unfold check_set_voltage
  norm_num

/-- C9 amended: each WAIT-phase checker confirms exactly under its own
device-specific test - supply voltage by exact equality, pump rotate rate
strictly within 10 units, valve servo position past a fixed threshold
(≥ 3000 closed, ≤ 2200 open), torque by exact zero load, relay state by
exact list match - and on every mismatching observation the checker
re-issues the same command once and checks again, so the number of re-issues
equals the length of any all-mismatch observation stream (unbounded). -/
theorem C9_wait_confirmation (v t : ℚ) (c r p l : ℤ) (a b : List ℕ)
    {α : Type} (confirm : α → Bool) (o : α) (n : ℕ)
    (hmiss : confirm o = false) :
    (check_set_voltage v t = true ↔ v = t) ∧
    (check_rotate_rate c r = true ↔ |c - r| < 10) ∧
    (check_position_close p = true ↔ 3000 ≤ p) ∧
    (check_position_open p = true ↔ p ≤ 2200) ∧
    (check_torque l = true ↔ l = 0) ∧
    (check_relay_state a b = true ↔ a = b) ∧
    reissue_streak confirm (List.replicate n o) = n := by
  refine ⟨?_, ?_, ?_, ?_, ?_, ?_, ?_⟩
  · unfold check_set_voltage
    simp
  · unfold check_rotate_rate
    simp
  · unfold check_position_close
    simp
  · unfold check_position_open
    simp
  · unfold check_torque
    simp
  · unfold check_relay_state
    simp
  · unfold reissue_streak
    rw [List.takeWhile_replicate]
    simp [hmiss]

/-- Witness for the amended C9 at concrete readings. -/
theorem C9_wait_confirmation_witness :
    (check_set_voltage 100 100 = true ↔ (100 : ℚ) = 100) ∧
    (check_rotate_rate 1345 1340 = true ↔ |(1345 : ℤ) - 1340| < 10) ∧
    (check_position_close 3050 = true ↔ (3000 : ℤ) ≤ 3050) ∧
    (check_position_open 3050 = true ↔ (3050 : ℤ) ≤ 2200) ∧
    (check_torque 0 = true ↔ (0 : ℤ) = 0) ∧
    (check_relay_state [1, 0] [1, 0] = true ↔ ([1, 0] : List ℕ) = [1, 0]) ∧
    reissue_streak (fun o : ℤ => check_rotate_rate o 0) (List.replicate 7 50) = 7 := by
  have h := C9_wait_confirmation 100 100 1345 1340 3050 0 [1, 0] [1, 0]
    (fun o : ℤ => check_rotate_rate o 0) 50 7 (by decide)
  exact ⟨h.1, h.2.1, h.2.2.1, h.2.2.2.1, h.2.2.2.2.1, h.2.2.2.2.2.1, h.2.2.2.2.2.2⟩

/-- The wait/terminal phases of `WorkerState` (src/inter_operv2.py,
lines 137-167). Each `SET_*`/actuation state runs synchronously inside
`process_next_state` and immediately lands in its wait state, so only the
wait states and the return to `CHECK_TIME` are observable between events. -/
inductive Phase where
  | waitRelayClose
  | waitPowerSupplyClose
  | waitGearpumpClose
  | waitServoClose
  | waitTorqueClose
  | waitServoOpen
  | waitGearpumpOpen
  | waitTorqueOpen
  | waitPowerSupplyOpen
  | waitRelayOpen
  | checkTime
  deriving DecidableEq

/-- Commands the sequencer emits to the device workers (the
`button_checked*` signal emissions in src/inter_operv2.py). -/
inductive Cmd where
  | relayCmd (relays : List ℕ)
  | voltageCmd (v : ℚ)
  | pumpCmd (r : ℕ)
  | servoCloseCmd (servo_id : ℕ)
  | servoOpenCmd (servo_id : ℕ)
  | torqueCloseCmd (servo_id : ℕ)
  | torqueOpenCmd (servo_id : ℕ)
  deriving DecidableEq

/-- Confirmation events delivered to the sequencer's `on_*` slots
(src/inter_operv2.py, lines 204-211). -/
inductive Event where
  | relayChanged
  | voltageSet
  | rotateRateSet
  | servoClosed (servo_id : ℕ)
  | servoOpened (servo_id : ℕ)
  | torqueDisabledClose (servo_id : ℕ)
  | torqueDisabledOpen (servo_id : ℕ)
  deriving DecidableEq

/-- Sequencer state during one transition: the current phase, the scheduler's
running set and relay list (frozen during the transition - the scheduler is
only updated in `PROCESS_INTERVAL`), and the in-flight completion sets. -/
structure SeqState where
  phase : Phase
  running : Finset ℕ
  relays : List ℕ
  reactors_to_close : Finset ℕ
  reactors_to_distorque_close : Finset ℕ
  reactors_to_open : Finset ℕ
  reactors_to_distorque_open : Finset ℕ
  deriving DecidableEq

/-- Method `get_ps_voltage` (src/inter_operv2.py, lines 560-563). -/
def get_ps_voltage (num_active_reactors : ℕ) : ℚ :=
  ([0, 10, 20, 30, 40, 50, 60, 70, 80, 90, 100] : List ℚ).getD
    num_active_reactors 0

/-- Method `get_gearpump_rotate_rate` (src/inter_operv2.py, lines 554-558). -/
def get_gearpump_rotate_rate (num_active_reactors : ℕ) : ℕ :=
  [0, 1340, 1452, 1588, 1753, 1860, 2000, 2190, 2320, 2484, 2600].getD
    num_active_reactors 0

/-- The reactors whose valves are to be closed:
`{id_r for id_r in range(10) if id_r not in running_reactors}`
(src/inter_operv2.py, lines 380 and 399). -/
def SeqState.close_set (s : SeqState) : Finset ℕ :=
  Finset.range 10 \ s.running

/-- Handler `set_relay_state_close` (src/inter_operv2.py, lines 323-331). -/
def set_relay_state_close (s : SeqState) : SeqState × List Cmd :=
  ({ s with phase := .waitRelayClose }, [.relayCmd s.relays])

/-- Handler `set_power_supply_close` (src/inter_operv2.py, lines 345-350). -/
def set_power_supply_close (s : SeqState) : SeqState × List Cmd :=
  ({ s with phase := .waitPowerSupplyClose },
    [.voltageCmd (get_ps_voltage s.running.card)])

/-- Handler `set_gearpump_rate_close` (src/inter_operv2.py, lines 361-366). -/
def set_gearpump_rate_close (s : SeqState) : SeqState × List Cmd :=
  ({ s with phase := .waitGearpumpClose },
    [.pumpCmd (get_gearpump_rotate_rate s.running.card)])

/-- Handler `close_servo_motor` (src/inter_operv2.py, lines 378-385);
the set iteration is modelled in ascending servo order. -/
def close_servo_motor (s : SeqState) : SeqState × List Cmd :=
  ({ s with phase := .waitServoClose, reactors_to_close := s.close_set },
    (s.close_set.sort (· ≤ ·)).map (fun i => .servoCloseCmd (i + 1)))

/-- Handler `disable_torque_close` (src/inter_operv2.py, lines 397-404). -/
def disable_torque_close (s : SeqState) : SeqState × List Cmd :=
  ({ s with
      phase := .waitTorqueClose
      reactors_to_distorque_close := s.close_set },
    (s.close_set.sort (· ≤ ·)).map (fun i => .torqueCloseCmd (i + 1)))

/-- Handler `open_servo_motor` (src/inter_operv2.py, lines 421-428). -/
def open_servo_motor (s : SeqState) : SeqState × List Cmd :=
  ({ s with phase := .waitServoOpen, reactors_to_open := s.running },
    (s.running.sort (· ≤ ·)).map (fun i => .servoOpenCmd (i + 1)))

/-- Handler `set_gearpump_rate_open` (src/inter_operv2.py, lines 440-445). -/
def set_gearpump_rate_open (s : SeqState) : SeqState × List Cmd :=
  ({ s with phase := .waitGearpumpOpen },
    [.pumpCmd (get_gearpump_rotate_rate s.running.card)])

/-- Handler `disable_torque_open` (src/inter_operv2.py, lines 447-454). -/
def disable_torque_open (s : SeqState) : SeqState × List Cmd :=
  ({ s with
      phase := .waitTorqueOpen
      reactors_to_distorque_open := s.running },
    (s.running.sort (· ≤ ·)).map (fun i => .torqueOpenCmd (i + 1)))

/-- Handler `set_power_supply_open` (src/inter_operv2.py, lines 466-471). -/
def set_power_supply_open (s : SeqState) : SeqState × List Cmd :=
  ({ s with phase := .waitPowerSupplyOpen },
    [.voltageCmd (get_ps_voltage s.running.card)])

/-- Handler `set_relay_state_open` (src/inter_operv2.py, lines 473-481). -/
def set_relay_state_open (s : SeqState) : SeqState × List Cmd :=
  ({ s with phase := .waitRelayOpen }, [.relayCmd s.relays])

/-- One confirmation event processed by the sequencer's signal slots
(`on_relay_state_changed`, `on_voltage_set`, `on_rotate_rate_set`,
`on_servo_closed`, `on_servo_opened`, `on_torque_disabled_close`,
`on_torque_disabled_open`, src/inter_operv2.py lines 333-481): events that
do not match the current wait phase are ignored. -/
def seq_step (s : SeqState) (e : Event) : SeqState × List Cmd :=
  match e, s.phase with
  | .relayChanged, .waitRelayClose => set_power_supply_close s
  | .relayChanged, .waitRelayOpen => ({ s with phase := .checkTime }, [])
  | .voltageSet, .waitPowerSupplyClose => set_gearpump_rate_close s
  | .voltageSet, .waitPowerSupplyOpen => set_relay_state_open s
  | .rotateRateSet, .waitGearpumpClose => close_servo_motor s
  | .rotateRateSet, .waitGearpumpOpen => disable_torque_open s
  | .servoClosed sid, .waitServoClose =>
      let r := s.reactors_to_close.erase (sid - 1)
      if r = ∅ then disable_torque_close { s with reactors_to_close := r }
      else ({ s with reactors_to_close := r }, [])
  | .torqueDisabledClose sid, .waitTorqueClose =>
      let r := s.reactors_to_distorque_close.erase (sid - 1)
      if r = ∅ then
        ({ s with reactors_to_distorque_close := r, phase := .checkTime }, [])
      else ({ s with reactors_to_distorque_close := r }, [])
  | .servoOpened sid, .waitServoOpen =>
      let r := s.reactors_to_open.erase (sid - 1)
      if r = ∅ then set_gearpump_rate_open { s with reactors_to_open := r }
      else ({ s with reactors_to_open := r }, [])
  | .torqueDisabledOpen sid, .waitTorqueOpen =>
      let r := s.reactors_to_distorque_open.erase (sid - 1)
      if r = ∅ then set_power_supply_open { s with reactors_to_distorque_open := r }
      else ({ s with reactors_to_distorque_open := r }, [])
  | _, _ => (s, [])

/-- Run the sequencer over a list of confirmation events, collecting all
emitted commands in order. -/
def seq_run : SeqState → List Event → SeqState × List Cmd
  | s, [] => (s, [])
  | s, e :: es =>
    ((seq_run (seq_step s e).1 es).1,
      (seq_step s e).2 ++ (seq_run (seq_step s e).1 es).2)

/-- Entering the deactivation sequence from `PROCESS_INTERVAL` when
`target < active` (src/inter_operv2.py, lines 311-312). -/
def start_close (s : SeqState) : SeqState × List Cmd :=
  set_relay_state_close s

/-- Entering the activation sequence from `PROCESS_INTERVAL` when
`target > active` (src/inter_operv2.py, lines 313-314). -/
def start_open (s : SeqState) : SeqState × List Cmd :=
  open_servo_motor s

/-- The full deactivation command order as the spec states it: relay-off,
supply voltage, pump rate, valve-close batch, torque-release batch. -/
def canonical_close_cmds (s0 : SeqState) : List Cmd :=
  [.relayCmd s0.relays, .voltageCmd (get_ps_voltage s0.running.card),
    .pumpCmd (get_gearpump_rotate_rate s0.running.card)] ++
  (s0.close_set.sort (· ≤ ·)).map (fun i => .servoCloseCmd (i + 1)) ++
  (s0.close_set.sort (· ≤ ·)).map (fun i => .torqueCloseCmd (i + 1))

/-- The full activation command order as the spec states it: valve-open
batch, pump rate, torque-release batch, supply voltage, relay-on. -/
def canonical_open_cmds (s0 : SeqState) : List Cmd :=
  (s0.running.sort (· ≤ ·)).map (fun i => .servoOpenCmd (i + 1)) ++
  [.pumpCmd (get_gearpump_rotate_rate s0.running.card)] ++
  (s0.running.sort (· ≤ ·)).map (fun i => .torqueOpenCmd (i + 1)) ++
  [.voltageCmd (get_ps_voltage s0.running.card),
    .relayCmd s0.relays]

/-- List prefix relation. -/
def PrefixOf {α : Type} (a b : List α) : Prop :=
  ∃ t, a ++ t = b

/-- The event confirms the current wait phase: the matching device signal,
and for the batched servo/torque waits the signal that empties the pending
set. -/
def wait_confirms (s : SeqState) (e : Event) : Prop :=
  match s.phase, e with
  | .waitRelayClose, .relayChanged => True
  | .waitRelayOpen, .relayChanged => True
  | .waitPowerSupplyClose, .voltageSet => True
  | .waitPowerSupplyOpen, .voltageSet => True
  | .waitGearpumpClose, .rotateRateSet => True
  | .waitGearpumpOpen, .rotateRateSet => True
  | .waitServoClose, .servoClosed sid => s.reactors_to_close.erase (sid - 1) = ∅
  | .waitTorqueClose, .torqueDisabledClose sid =>
      s.reactors_to_distorque_close.erase (sid - 1) = ∅
  | .waitServoOpen, .servoOpened sid => s.reactors_to_open.erase (sid - 1) = ∅
  | .waitTorqueOpen, .torqueDisabledOpen sid =>
      s.reactors_to_distorque_open.erase (sid - 1) = ∅
  | _, _ => False

/-- Commands the deactivation sequence has emitted by the time it sits in a
given phase (`none` for phases outside the deactivation chain). -/
def close_acc (s0 : SeqState) : Phase → Option (List Cmd)
  | .waitRelayClose => some [.relayCmd s0.relays]
  | .waitPowerSupplyClose =>
      some [.relayCmd s0.relays, .voltageCmd (get_ps_voltage s0.running.card)]
  | .waitGearpumpClose =>
      some [.relayCmd s0.relays, .voltageCmd (get_ps_voltage s0.running.card),
        .pumpCmd (get_gearpump_rotate_rate s0.running.card)]
  | .waitServoClose =>
      some ([.relayCmd s0.relays, .voltageCmd (get_ps_voltage s0.running.card),
        .pumpCmd (get_gearpump_rotate_rate s0.running.card)] ++
        (s0.close_set.sort (· ≤ ·)).map (fun i => .servoCloseCmd (i + 1)))
  | .waitTorqueClose => some (canonical_close_cmds s0)
  | .checkTime => some (canonical_close_cmds s0)
  | _ => none

/-- Commands the activation sequence has emitted by the time it sits in a
given phase (`none` for phases outside the activation chain). -/
def open_acc (s0 : SeqState) : Phase → Option (List Cmd)
  | .waitServoOpen =>
      some ((s0.running.sort (· ≤ ·)).map (fun i => .servoOpenCmd (i + 1)))
  | .waitGearpumpOpen =>
      some ((s0.running.sort (· ≤ ·)).map (fun i => .servoOpenCmd (i + 1)) ++
        [.pumpCmd (get_gearpump_rotate_rate s0.running.card)])
  | .waitTorqueOpen =>
      some ((s0.running.sort (· ≤ ·)).map (fun i => .servoOpenCmd (i + 1)) ++
        [.pumpCmd (get_gearpump_rotate_rate s0.running.card)] ++
        (s0.running.sort (· ≤ ·)).map (fun i => .torqueOpenCmd (i + 1)))
  | .waitPowerSupplyOpen =>
      some ((s0.running.sort (· ≤ ·)).map (fun i => .servoOpenCmd (i + 1)) ++
        [.pumpCmd (get_gearpump_rotate_rate s0.running.card)] ++
        (s0.running.sort (· ≤ ·)).map (fun i => .torqueOpenCmd (i + 1)) ++
        [.voltageCmd (get_ps_voltage s0.running.card)])
  | .waitRelayOpen => some (canonical_open_cmds s0)
  | .checkTime => some (canonical_open_cmds s0)
  | _ => none

/-- Invariant of a deactivation run: the frozen scheduler data is unchanged
and the emitted commands are exactly the prefix recorded for the phase. -/
def CloseInv (s0 s : SeqState) (acc : List Cmd) : Prop :=
  s.running = s0.running ∧ s.relays = s0.relays ∧
    close_acc s0 s.phase = some acc

/-- Invariant of an activation run. -/
def OpenInv (s0 s : SeqState) (acc : List Cmd) : Prop :=
  s.running = s0.running ∧ s.relays = s0.relays ∧
    open_acc s0 s.phase = some acc

theorem close_inv_step (s0 s : SeqState) (acc : List Cmd) (e : Event)
    (h : CloseInv s0 s acc) :
    CloseInv s0 (seq_step s e).1 (acc ++ (seq_step s e).2) := by
  obtain ⟨hrun, hrel, hacc⟩ := h
  unfold CloseInv
  cases hph : s.phase <;> rw [hph] at hacc <;>
    first
      | exact absurd hacc (fun hcon => Option.noConfusion hcon)
      | (simp only [close_acc, Option.some.injEq] at hacc
         subst hacc
         cases e <;>
           simp_all [seq_step, close_acc, canonical_close_cmds,
             set_power_supply_close, set_gearpump_rate_close, close_servo_motor,
             disable_torque_close, set_relay_state_open, set_gearpump_rate_open,
             set_power_supply_open, open_servo_motor, SeqState.close_set] <;>
           split_ifs <;>
           simp_all [seq_step, close_acc, canonical_close_cmds,
             set_power_supply_close, set_gearpump_rate_close, close_servo_motor,
             disable_torque_close, set_relay_state_open, set_gearpump_rate_open,
             set_power_supply_open, open_servo_motor, SeqState.close_set])

theorem open_inv_step (s0 s : SeqState) (acc : List Cmd) (e : Event)
    (h : OpenInv s0 s acc) :
    OpenInv s0 (seq_step s e).1 (acc ++ (seq_step s e).2) := by
  obtain ⟨hrun, hrel, hacc⟩ := h
  unfold OpenInv
  cases hph : s.phase <;> rw [hph] at hacc <;>
    first
      | exact absurd hacc (fun hcon => Option.noConfusion hcon)
      | (simp only [open_acc, Option.some.injEq] at hacc
         subst hacc
         cases e <;>
           simp_all [seq_step, open_acc, canonical_open_cmds,
             set_power_supply_close, set_gearpump_rate_close, close_servo_motor,
             disable_torque_close, disable_torque_open, set_relay_state_open,
             set_gearpump_rate_open, set_power_supply_open, open_servo_motor,
             SeqState.close_set] <;>
           split_ifs <;>
           simp_all [seq_step, open_acc, canonical_open_cmds,
             set_power_supply_close, set_gearpump_rate_close, close_servo_motor,
             disable_torque_close, disable_torque_open, set_relay_state_open,
             set_gearpump_rate_open, set_power_supply_open, open_servo_motor,
             SeqState.close_set])

theorem close_inv_run (s0 : SeqState) (evs : List Event) (s : SeqState)
    (acc : List Cmd) (h : CloseInv s0 s acc) :
    CloseInv s0 (seq_run s evs).1 (acc ++ (seq_run s evs).2) := by
  induction evs generalizing s acc with
  | nil => simpa [seq_run] using h
  | cons e es ih =>
    have := ih (seq_step s e).1 (acc ++ (seq_step s e).2)
      (close_inv_step s0 s acc e h)
    simpa [seq_run, List.append_assoc] using this

theorem open_inv_run (s0 : SeqState) (evs : List Event) (s : SeqState)
    (acc : List Cmd) (h : OpenInv s0 s acc) :
    OpenInv s0 (seq_run s evs).1 (acc ++ (seq_run s evs).2) := by
  induction evs generalizing s acc with
  | nil => simpa [seq_run] using h
  | cons e es ih =>
    have := ih (seq_step s e).1 (acc ++ (seq_step s e).2)
      (open_inv_step s0 s acc e h)
    simpa [seq_run, List.append_assoc] using this

theorem close_acc_prefix (s0 : SeqState) (ph : Phase) (acc : List Cmd)
    (h : close_acc s0 ph = some acc) :
    PrefixOf acc (canonical_close_cmds s0) := by
  cases ph <;>
    first
      | exact absurd h (fun hcon => Option.noConfusion hcon)
      | (simp only [close_acc, Option.some.injEq] at h
         subst h
         refine ⟨([.voltageCmd (get_ps_voltage s0.running.card),
             .pumpCmd (get_gearpump_rotate_rate s0.running.card)] ++
           (s0.close_set.sort (· ≤ ·)).map (fun i => .servoCloseCmd (i + 1)) ++
           (s0.close_set.sort (· ≤ ·)).map (fun i => .torqueCloseCmd (i + 1))), ?_⟩
         simp [canonical_close_cmds]
         done)
      | (simp only [close_acc, Option.some.injEq] at h
         subst h
         refine ⟨([.pumpCmd (get_gearpump_rotate_rate s0.running.card)] ++
           (s0.close_set.sort (· ≤ ·)).map (fun i => .servoCloseCmd (i + 1)) ++
           (s0.close_set.sort (· ≤ ·)).map (fun i => .torqueCloseCmd (i + 1))), ?_⟩
         simp [canonical_close_cmds]
         done)
      | (simp only [close_acc, Option.some.injEq] at h
         subst h
         refine ⟨((s0.close_set.sort (· ≤ ·)).map (fun i => .servoCloseCmd (i + 1)) ++
           (s0.close_set.sort (· ≤ ·)).map (fun i => .torqueCloseCmd (i + 1))), ?_⟩
         simp [canonical_close_cmds]
         done)
      | (simp only [close_acc, Option.some.injEq] at h
         subst h
         refine ⟨(s0.close_set.sort (· ≤ ·)).map (fun i => .torqueCloseCmd (i + 1)), ?_⟩
         simp [canonical_close_cmds]
         done)
      | (simp only [close_acc, Option.some.injEq] at h
         subst h
         exact ⟨[], by simp⟩)

theorem open_acc_prefix (s0 : SeqState) (ph : Phase) (acc : List Cmd)
    (h : open_acc s0 ph = some acc) :
    PrefixOf acc (canonical_open_cmds s0) := by
  cases ph <;>
    first
      | exact absurd h (fun hcon => Option.noConfusion hcon)
      | (simp only [open_acc, Option.some.injEq] at h
         subst h
         refine ⟨([.pumpCmd (get_gearpump_rotate_rate s0.running.card)] ++
           (s0.running.sort (· ≤ ·)).map (fun i => .torqueOpenCmd (i + 1)) ++
           [.voltageCmd (get_ps_voltage s0.running.card), .relayCmd s0.relays]), ?_⟩
         simp [canonical_open_cmds]
         done)
      | (simp only [open_acc, Option.some.injEq] at h
         subst h
         refine ⟨((s0.running.sort (· ≤ ·)).map (fun i => .torqueOpenCmd (i + 1)) ++
           [.voltageCmd (get_ps_voltage s0.running.card), .relayCmd s0.relays]), ?_⟩
         simp [canonical_open_cmds]
         done)
      | (simp only [open_acc, Option.some.injEq] at h
         subst h
         refine ⟨[.voltageCmd (get_ps_voltage s0.running.card), .relayCmd s0.relays], ?_⟩
         simp [canonical_open_cmds]
         done)
      | (simp only [open_acc, Option.some.injEq] at h
         subst h
         refine ⟨[.relayCmd s0.relays], ?_⟩
         simp [canonical_open_cmds]
         done)
      | (simp only [open_acc, Option.some.injEq] at h
         subst h
         exact ⟨[], by simp⟩)

/-- C1: however the confirmation events interleave, the deactivation run
emits its commands in the order relay-off, supply voltage, pump rate,
valve-close batch, torque-release batch (every trace is a prefix of that
order), the activation run emits valve-open, pump rate, torque-release,
supply voltage, relay-on; and the sequencer emits a command only when the
arriving event confirms the wait phase it currently sits in. -/
theorem C1_sequencer_command_order (s0 : SeqState) (evs : List Event) :
    PrefixOf ((start_close s0).2 ++ (seq_run (start_close s0).1 evs).2)
      (canonical_close_cmds s0) ∧
    PrefixOf ((start_open s0).2 ++ (seq_run (start_open s0).1 evs).2)
      (canonical_open_cmds s0) ∧
    (∀ (s : SeqState) (e : Event), (seq_step s e).2 ≠ [] → wait_confirms s e) := by
  refine ⟨?_, ?_, ?_⟩
  · have hstart : CloseInv s0 (start_close s0).1 (start_close s0).2 :=
      ⟨rfl, rfl, rfl⟩
    have hrun := close_inv_run s0 evs (start_close s0).1 (start_close s0).2 hstart
    exact close_acc_prefix s0 _ _ hrun.2.2
  · have hstart : OpenInv s0 (start_open s0).1 (start_open s0).2 :=
      ⟨rfl, rfl, rfl⟩
    have hrun := open_inv_run s0 evs (start_open s0).1 (start_open s0).2 hstart
    exact open_acc_prefix s0 _ _ hrun.2.2
  · intro s e hne
    revert hne
    cases hph : s.phase <;> cases e <;>
      first
        | (simp [seq_step, wait_confirms, hph, set_power_supply_close,
             set_gearpump_rate_close, close_servo_motor, disable_torque_close,
             set_relay_state_open, set_gearpump_rate_open, set_power_supply_open,
             open_servo_motor]
           done)
        | (simp only [seq_step, wait_confirms, hph]
           split_ifs with hif <;>
             simp_all [disable_torque_close, set_gearpump_rate_open,
               set_power_supply_open])

/-- Concrete sequencer snapshot (two reactors to stay active) used as
witness input. -/
def exampleSeqState : SeqState :=
  ⟨Phase.checkTime, {0, 1}, [1, 1, 0, 0, 0, 0, 0, 0, 0, 0, 0, 0, 0, 0, 0, 0],
    ∅, ∅, ∅, ∅⟩

/-- The same snapshot sitting in the relay wait phase of a deactivation. -/
def exampleWaitState : SeqState :=
  ⟨Phase.waitRelayClose, {0, 1}, [1, 1, 0, 0, 0, 0, 0, 0, 0, 0, 0, 0, 0, 0, 0, 0],
    ∅, ∅, ∅, ∅⟩

/-- Witness for C1: a concrete deactivation run over a concrete event list,
plus a concrete command-emitting step whose event confirms the wait phase. -/
theorem C1_sequencer_command_order_witness :
    PrefixOf ((start_close exampleSeqState).2 ++
        (seq_run (start_close exampleSeqState).1
          [Event.relayChanged, Event.voltageSet]).2)
      (canonical_close_cmds exampleSeqState) ∧
    (seq_step exampleWaitState Event.relayChanged).2 ≠ [] ∧
    wait_confirms exampleWaitState Event.relayChanged := by
  have h := C1_sequencer_command_order exampleSeqState
    [Event.relayChanged, Event.voltageSet]
  refine ⟨h.1, ?_, h.2.2 exampleWaitState Event.relayChanged ?_⟩
  · simp [seq_step, exampleWaitState, set_power_supply_close]
  · simp [seq_step, exampleWaitState, set_power_supply_close]

end TenJrrs
